import Mathlib

/-!
# Verification of the Ultimate Tic-Tac-Toe rules engine and search engine

Shallow embedding of `ultimate_tictactoe.py`: the `SubBoard` and
`UltimateTicTacToe` classes (game-rules state machine) and the `AIPlayer`
search engine (`_minimax_numpy`, `_bigbrain_move`, `_medium_move`,
`_evaluate_numpy`), together with theorems about move legality, state
immutability on failure, active-board transition, turn alternation,
valid-move enumeration, reachability invariants, terminal scoring,
evaluation structure, and alpha-beta / full-minimax equivalence.

Python `None`/`'X'`/`'O'` cell values become `Option Player`; mutation
becomes explicit state passing (`make_move` returns the success flag
together with the updated state, and on every failing path it returns the
input state itself, mirroring the fact that the Python code mutates
nothing before its last precondition check passes).
-/

inductive Player : Type
  | X : Player
  | O : Player
deriving DecidableEq, Repr

/-- `'O' if self.current_player == 'X' else 'X'` -/
def Player.other : Player → Player
  | Player.X => Player.O
  | Player.O => Player.X

/-- A single 3x3 tic tac toe board (`class SubBoard`). -/
structure SubBoard : Type where
  cells : Fin 3 → Fin 3 → Option Player
  winner : Option Player
deriving DecidableEq

/-- One row/column/diagonal check of `SubBoard._check_winner`, in source
order: the first cell must be truthy (non-`None`) and all three equal. -/
def lineWin (cells : Fin 3 → Fin 3 → Option Player)
    (a b c : Fin 3 × Fin 3) : Option Player :=
  if (cells a.1 a.2).isSome ∧ cells a.1 a.2 = cells b.1 b.2 ∧
      cells b.1 b.2 = cells c.1 c.2 then
    cells a.1 a.2
  else
    none

/-- The first winning line found over a 3x3 grid, in the exact order
`_check_winner` checks: rows 0-2, columns 0-2, main diagonal,
anti-diagonal (both diagonal checks are guarded by the center cell being
truthy, which is subsumed by the first-cell truthiness of `lineWin`
once we order the triple to start at the center). -/
def findLine (cells : Fin 3 → Fin 3 → Option Player) : Option Player :=
  lineWin cells (0, 0) (0, 1) (0, 2) <|>
  lineWin cells (1, 0) (1, 1) (1, 2) <|>
  lineWin cells (2, 0) (2, 1) (2, 2) <|>
  lineWin cells (0, 0) (1, 0) (2, 0) <|>
  lineWin cells (0, 1) (1, 1) (2, 1) <|>
  lineWin cells (0, 2) (1, 2) (2, 2) <|>
  lineWin cells (1, 1) (0, 0) (2, 2) <|>
  lineWin cells (1, 1) (0, 2) (2, 0)

/-- `SubBoard._check_winner`: set `winner` to the first found line's
symbol; leave it unchanged when no line is complete. -/
def SubBoard.check_winner (sb : SubBoard) : SubBoard :=
  match findLine sb.cells with
  | some w => { sb with winner := some w }
  | none => sb

/-- `SubBoard.make_move`: succeeds iff the cell is empty and no winner is
set; on success writes the cell and re-evaluates the winner. Returns the
success flag and the (possibly updated) board. -/
def SubBoard.make_move (sb : SubBoard) (row col : Fin 3) (player : Player) :
    Bool × SubBoard :=
  if sb.cells row col = none ∧ sb.winner = none then
    let sb' : SubBoard :=
      { sb with cells := fun r c =>
          if r = row ∧ c = col then some player else sb.cells r c }
    (true, sb'.check_winner)
  else
    (false, sb)

/-- `SubBoard.is_full`: all 9 cells are filled. -/
def SubBoard.is_full (sb : SubBoard) : Bool :=
  (List.finRange 3).all fun r =>
    (List.finRange 3).all fun c => (sb.cells r c).isSome

/-- `SubBoard.is_playable`: no winner and not full. -/
def SubBoard.is_playable (sb : SubBoard) : Bool :=
  sb.winner = none && !sb.is_full

/-- The full game state (`class UltimateTicTacToe`). -/
structure Game : Type where
  sub_boards : Fin 3 → Fin 3 → SubBoard
  current_player : Player
  active_board : Option (Fin 3 × Fin 3)
  winner : Option Player
  game_over : Bool
  just_ended : Bool
deriving DecidableEq

/-- `UltimateTicTacToe.__init__`. -/
def Game.init : Game where
  sub_boards := fun _ _ => { cells := fun _ _ => none, winner := none }
  current_player := Player.X
  active_board := none
  winner := none
  game_over := false
  just_ended := false

/-- `UltimateTicTacToe._check_winner`: find a meta-board winner over the
grid of sub-board winners; if none, declare the game over when every
sub-board is unplayable (draw). -/
def Game.check_winner (g : Game) : Game :=
  match findLine (fun r c => (g.sub_boards r c).winner) with
  | some w => { g with winner := some w, game_over := true }
  | none =>
      if (List.finRange 3).all
          (fun r => (List.finRange 3).all
            (fun c => !(g.sub_boards r c).is_playable)) then
        { g with game_over := true }
      else
        g

/-- `UltimateTicTacToe.make_move`.  Every failing branch returns the
input state unchanged, exactly as the Python method returns `False`
before any mutation. -/
def Game.make_move (g : Game) (br bc cr cc : Fin 3) : Bool × Game :=
  if g.game_over then (false, g)
  else if (match g.active_board with
           | some ab => decide ((br, bc) ≠ ab)
           | none => false) then (false, g)
  else if !(g.sub_boards br bc).is_playable then (false, g)
  else
    let r := (g.sub_boards br bc).make_move cr cc g.current_player
    if r.1 then
      let boards' : Fin 3 → Fin 3 → SubBoard := fun rr c =>
        if rr = br ∧ c = bc then r.2 else g.sub_boards rr c
      let was_over := g.game_over
      let g1 : Game := { g with sub_boards := boards' }
      let g2 := g1.check_winner
      let g3 : Game :=
        if g2.game_over ∧ ¬was_over then { g2 with just_ended := true }
        else g2
      if g3.game_over then (true, g3)
      else
        (true,
         { g3 with
           active_board :=
             if (g3.sub_boards cr cc).is_playable then some (cr, cc)
             else none,
           current_player := g3.current_player.other })
    else (false, g)

/-- `UltimateTicTacToe.is_valid_board`. -/
def Game.is_valid_board (g : Game) (br bc : Fin 3) : Bool :=
  if g.game_over then false
  else if !(g.sub_boards br bc).is_playable then false
  else
    match g.active_board with
    | none => true
    | some ab => decide ((br, bc) = ab)

/-- A move: `(board_row, board_col, cell_row, cell_col)`. -/
abbrev Move := Fin 3 × Fin 3 × Fin 3 × Fin 3

/-- `UltimateTicTacToe.get_valid_moves`: nested row-major loops over
boards and cells, appending each empty cell of each valid board. -/
def Game.get_valid_moves (g : Game) : List Move :=
  (List.finRange 3).flatMap fun br =>
    (List.finRange 3).flatMap fun bc =>
      if g.is_valid_board br bc then
        (List.finRange 3).flatMap fun cr =>
          ((List.finRange 3).filter
            (fun cc => (g.sub_boards br bc).cells cr cc = none)).map
            fun cc => (br, bc, cr, cc)
      else
        []

/-- Apply a list of moves in order, starting from a given state. -/
def Game.applyMoves : Game → List Move → Game
  | g, [] => g
  | g, (br, bc, cr, cc) :: ms => Game.applyMoves (g.make_move br bc cr cc).2 ms

/-- Apply a list of moves, also reporting whether every move succeeded. -/
def Game.applyMovesOk : Game → List Move → Bool × Game
  | g, [] => (true, g)
  | g, (br, bc, cr, cc) :: ms =>
      let r := g.make_move br bc cr cc
      let r2 := Game.applyMovesOk r.2 ms
      (r.1 && r2.1, r2.2)

/-- C1: `make_move(br,bc,cr,cc)` returns true iff the target sub-board is
playable, the active-board constraint allows it, the target cell is
empty, and the game is not over. -/
theorem make_move_succeeds_iff (g : Game) (br bc cr cc : Fin 3) :
    (g.make_move br bc cr cc).1 = true ↔
      ((g.sub_boards br bc).is_playable = true ∧
       (g.active_board = none ∨ g.active_board = some (br, bc)) ∧
       (g.sub_boards br bc).cells cr cc = none ∧
       g.game_over = false) := by
  unfold Game.make_move
  by_cases hgo : g.game_over = true
  · simp [hgo]
  · cases hab : g.active_board with
    | none =>
        by_cases hp : (g.sub_boards br bc).is_playable = true
        · have hw : (g.sub_boards br bc).winner = none := by
            simp [SubBoard.is_playable] at hp
            exact hp.1
          by_cases hc : (g.sub_boards br bc).cells cr cc = none
          · simp [hgo, hp, hc, hw, SubBoard.make_move]
            split <;> simp
          · simp [hgo, hp, hc, SubBoard.make_move]
        · simp [hgo, hp]
    | some ab =>
        by_cases hne : (br, bc) = ab
        · by_cases hp : (g.sub_boards br bc).is_playable = true
          · have hw : (g.sub_boards br bc).winner = none := by
              simp [SubBoard.is_playable] at hp
              exact hp.1
            by_cases hc : (g.sub_boards br bc).cells cr cc = none
            · simp [hgo, hab, hne, hp, hc, hw, SubBoard.make_move]
              split <;> simp
            · simp [hgo, hab, hne, hp, hc, SubBoard.make_move]
          · simp [hgo, hab, hne, hp]
        · simp [hgo, hab, hne, Ne.symm hne]

/-- C2: a failed `make_move` returns the state unchanged, and once
`game_over` holds every `make_move` fails and returns the state
unchanged. -/
theorem make_move_fail_no_mutation (g : Game) (br bc cr cc : Fin 3) :
    ((g.make_move br bc cr cc).1 = false → (g.make_move br bc cr cc).2 = g) ∧
    (g.game_over = true →
      (g.make_move br bc cr cc).1 = false ∧ (g.make_move br bc cr cc).2 = g) := by
  unfold Game.make_move
  refine ⟨?_, fun hgo => by simp [hgo]⟩
  by_cases hgo : g.game_over = true
  · simp [hgo]
  · simp only [hgo, if_false, Bool.false_eq_true]
    split
    · simp
    · split
      · simp
      · split
        · intro hcontra
          rw [apply_ite Prod.fst] at hcontra
          simp at hcontra
        · simp

/-- The draw test of `UltimateTicTacToe._check_winner`: every sub-board
is unplayable. -/
def allUnplayableB (bs : Fin 3 → Fin 3 → SubBoard) : Bool :=
  (List.finRange 3).all fun r =>
    (List.finRange 3).all fun c => !(bs r c).is_playable

theorem check_winner_current_player (x : Game) :
    x.check_winner.current_player = x.current_player := by
  unfold Game.check_winner
  split
  · rfl
  · split <;> rfl

theorem check_winner_active_board (x : Game) :
    x.check_winner.active_board = x.active_board := by
  unfold Game.check_winner
  split
  · rfl
  · split <;> rfl

theorem check_winner_sub_boards (x : Game) :
    x.check_winner.sub_boards = x.sub_boards := by
  unfold Game.check_winner
  split
  · rfl
  · split <;> rfl

theorem check_winner_not_over (x : Game) :
    x.check_winner.game_over = false →
      x.check_winner = x ∧ allUnplayableB x.sub_boards = false := by
  unfold Game.check_winner allUnplayableB
  split
  · simp
  · split
    · simp
    · rename_i hall
      intro _
      exact ⟨rfl, by simpa using hall⟩

/-- Structure of the state produced by a successful `make_move`: a
terminal move leaves `current_player` and `active_board` untouched; a
non-terminal move flips the player, re-targets `active_board` at
`(cr, cc)` when that sub-board is playable (else clears it), and the
draw test over the updated boards is necessarily false. -/
theorem make_move_success_spec (g : Game) (br bc cr cc : Fin 3) :
    (g.make_move br bc cr cc).1 = true →
      (((g.make_move br bc cr cc).2.game_over = true →
          (g.make_move br bc cr cc).2.current_player = g.current_player ∧
          (g.make_move br bc cr cc).2.active_board = g.active_board) ∧
       ((g.make_move br bc cr cc).2.game_over = false →
          (g.make_move br bc cr cc).2.current_player = g.current_player.other ∧
          (g.make_move br bc cr cc).2.active_board =
            (if ((g.make_move br bc cr cc).2.sub_boards cr cc).is_playable
             then some (cr, cc) else none) ∧
          allUnplayableB (g.make_move br bc cr cc).2.sub_boards = false)) := by
  unfold Game.make_move
  by_cases hgo : g.game_over = true
  · simp [hgo]
  · simp only [hgo, if_false, Bool.false_eq_true]
    split
    · simp
    · split
      · simp
      · split
        · split
          · rename_i hov
            intro _
            have h2 := hov.1
            refine ⟨fun _ => ⟨?_, ?_⟩, fun hf => ?_⟩
            · simp [h2, check_winner_current_player]
            · simp [h2, check_winner_active_board]
            · simp [h2] at hf
          · rename_i hnov
            intro _
            have h2 := Bool.eq_false_iff.mpr (fun hx => hnov ⟨hx, by simp⟩)
            have hcw := check_winner_not_over _ h2
            refine ⟨fun ht => ?_, fun _ => ⟨?_, ?_, ?_⟩⟩
            · simp [h2] at ht
            · simp [h2, check_winner_current_player]
            · simp [h2]
            · simp [h2, check_winner_sub_boards, hcw.2]
        · simp

/-- C4: after a successful non-terminal move the current player flips to
the opponent of the mover; after a successful terminal move it stays the
mover's symbol. -/
theorem make_move_turn_alternation (g : Game) (br bc cr cc : Fin 3)
    (h : (g.make_move br bc cr cc).1 = true) :
    ((g.make_move br bc cr cc).2.game_over = false →
      (g.make_move br bc cr cc).2.current_player = g.current_player.other) ∧
    ((g.make_move br bc cr cc).2.game_over = true →
      (g.make_move br bc cr cc).2.current_player = g.current_player) :=
  ⟨fun hf => ((make_move_success_spec g br bc cr cc h).2 hf).1,
   fun ht => ((make_move_success_spec g br bc cr cc h).1 ht).1⟩

/-- C4 witness: the opening move `(0,0,0,0)` flips the player from X
to O. -/
theorem make_move_turn_alternation_witness :
    (Game.init.make_move 0 0 0 0).2.current_player = Player.other Game.init.current_player :=
  (make_move_turn_alternation Game.init 0 0 0 0 (by decide)).1 (by decide)

/-- C3 (amended): after a successful move that leaves the game running,
`active_board` becomes `(cr, cc)` when that sub-board is playable in the
resulting state and `None` otherwise; after a successful move that ends
the game, `active_board` is left unchanged instead. -/
theorem make_move_active_board_transition (g : Game) (br bc cr cc : Fin 3)
    (h : (g.make_move br bc cr cc).1 = true) :
    ((g.make_move br bc cr cc).2.game_over = false →
      (g.make_move br bc cr cc).2.active_board =
        (if ((g.make_move br bc cr cc).2.sub_boards cr cc).is_playable
         then some (cr, cc) else none)) ∧
    ((g.make_move br bc cr cc).2.game_over = true →
      (g.make_move br bc cr cc).2.active_board = g.active_board) :=
  ⟨fun hf => ((make_move_success_spec g br bc cr cc h).2 hf).2.1,
   fun ht => ((make_move_success_spec g br bc cr cc h).1 ht).2⟩

/-- C3 witness: the opening move `(0,0,0,0)` leaves the game running and
re-targets `active_board` per the transition rule. -/
theorem make_move_active_board_transition_witness :
    (Game.init.make_move 0 0 0 0).2.active_board =
      (if ((Game.init.make_move 0 0 0 0).2.sub_boards 0 0).is_playable
       then some ((0 : Fin 3), (0 : Fin 3)) else none) :=
  (make_move_active_board_transition Game.init 0 0 0 0 (by decide)).1 (by decide)

/-- A legal 16-move game after which X, to move at the already-targeted
sub-board (0,2), completes the meta top row by playing cell (2,2). -/
def c3Moves : List Move :=
  [(0, 0, 0, 1), (0, 1, 0, 0), (0, 0, 1, 1), (1, 1, 0, 0), (0, 0, 2, 1),
   (2, 1, 0, 0), (0, 1, 2, 0), (2, 0, 0, 1), (0, 1, 2, 1), (2, 1, 0, 1),
   (0, 1, 2, 2), (2, 2, 0, 1), (0, 2, 2, 0), (2, 0, 0, 2), (0, 2, 2, 1),
   (2, 1, 0, 2)]



/-- Field-by-field boolean comparison of two game states (used to settle
concrete state equalities by evaluation, since propositional equality of
the function-valued fields does not reduce). -/
def Game.beq (a b : Game) : Bool :=
  ((List.finRange 3).all fun br =>
    (List.finRange 3).all fun bc =>
      ((List.finRange 3).all fun cr =>
        (List.finRange 3).all fun cc =>
          decide ((a.sub_boards br bc).cells cr cc = (b.sub_boards br bc).cells cr cc)) &&
      decide ((a.sub_boards br bc).winner = (b.sub_boards br bc).winner))
  && decide (a.current_player = b.current_player)
  && decide (a.active_board = b.active_board)
  && decide (a.winner = b.winner)
  && decide (a.game_over = b.game_over)
  && decide (a.just_ended = b.just_ended)

theorem Game.eq_of_beq {a b : Game} (h : a.beq b = true) : a = b := by
  unfold Game.beq at h
  simp only [Bool.and_eq_true, List.all_eq_true, List.mem_finRange,
    true_implies, decide_eq_true_eq] at h
  obtain ⟨⟨⟨⟨⟨hsb, hcp⟩, hab⟩, hwin⟩, hgo⟩, hje⟩ := h
  cases a with | mk asb acp aab awin ago aje =>
  cases b with | mk bsb bcp bab bwin bgo bje =>
  simp only [Game.mk.injEq]
  refine ⟨?_, hcp, hab, hwin, hgo, hje⟩
  funext br bc
  obtain ⟨hcells, hw⟩ := hsb br bc
  have h1 : (asb br bc).cells = (bsb br bc).cells := by
    funext cr cc
    exact hcells cr cc
  calc asb br bc = ⟨(asb br bc).cells, (asb br bc).winner⟩ := rfl
    _ = ⟨(bsb br bc).cells, (bsb br bc).winner⟩ := by rw [h1, hw]
    _ = bsb br bc := rfl

theorem prodStep {r : Bool × Game} {S : Game} (h1 : r.1 = true)
    (h2 : Game.beq r.2 S = true) : r = (true, S) := by
  obtain ⟨f, s⟩ := r
  simp only [Prod.mk.injEq]
  exact ⟨h1, Game.eq_of_beq h2⟩


/-- Build a 3x3 cell grid from nine row-major entries. -/
def mkCells (a00 a01 a02 a10 a11 a12 a20 a21 a22 : Option Player) :
    Fin 3 → Fin 3 → Option Player := fun r c =>
  match r.val, c.val with
  | 0, 0 => a00
  | 0, 1 => a01
  | 0, 2 => a02
  | 1, 0 => a10
  | 1, 1 => a11
  | 1, 2 => a12
  | 2, 0 => a20
  | 2, 1 => a21
  | _, _ => a22

/-- Build a 3x3 grid of sub-boards from nine row-major entries. -/
def mkBoards (b00 b01 b02 b10 b11 b12 b20 b21 b22 : SubBoard) :
    Fin 3 → Fin 3 → SubBoard := fun r c =>
  match r.val, c.val with
  | 0, 0 => b00
  | 0, 1 => b01
  | 0, 2 => b02
  | 1, 0 => b10
  | 1, 1 => b11
  | 1, 2 => b12
  | 2, 0 => b20
  | 2, 1 => b21
  | _, _ => b22

def c3S1 : Game where
  sub_boards := mkBoards
    { cells := mkCells (none) (some Player.X) (none) (none) (none) (none) (none) (none) (none), winner := none }
    { cells := mkCells (none) (none) (none) (none) (none) (none) (none) (none) (none), winner := none }
    { cells := mkCells (none) (none) (none) (none) (none) (none) (none) (none) (none), winner := none }
    { cells := mkCells (none) (none) (none) (none) (none) (none) (none) (none) (none), winner := none }
    { cells := mkCells (none) (none) (none) (none) (none) (none) (none) (none) (none), winner := none }
    { cells := mkCells (none) (none) (none) (none) (none) (none) (none) (none) (none), winner := none }
    { cells := mkCells (none) (none) (none) (none) (none) (none) (none) (none) (none), winner := none }
    { cells := mkCells (none) (none) (none) (none) (none) (none) (none) (none) (none), winner := none }
    { cells := mkCells (none) (none) (none) (none) (none) (none) (none) (none) (none), winner := none }
  current_player := Player.O
  active_board := some (0, 1)
  winner := none
  game_over := false
  just_ended := false

def c3S2 : Game where
  sub_boards := mkBoards
    { cells := mkCells (none) (some Player.X) (none) (none) (none) (none) (none) (none) (none), winner := none }
    { cells := mkCells (some Player.O) (none) (none) (none) (none) (none) (none) (none) (none), winner := none }
    { cells := mkCells (none) (none) (none) (none) (none) (none) (none) (none) (none), winner := none }
    { cells := mkCells (none) (none) (none) (none) (none) (none) (none) (none) (none), winner := none }
    { cells := mkCells (none) (none) (none) (none) (none) (none) (none) (none) (none), winner := none }
    { cells := mkCells (none) (none) (none) (none) (none) (none) (none) (none) (none), winner := none }
    { cells := mkCells (none) (none) (none) (none) (none) (none) (none) (none) (none), winner := none }
    { cells := mkCells (none) (none) (none) (none) (none) (none) (none) (none) (none), winner := none }
    { cells := mkCells (none) (none) (none) (none) (none) (none) (none) (none) (none), winner := none }
  current_player := Player.X
  active_board := some (0, 0)
  winner := none
  game_over := false
  just_ended := false

def c3S3 : Game where
  sub_boards := mkBoards
    { cells := mkCells (none) (some Player.X) (none) (none) (some Player.X) (none) (none) (none) (none), winner := none }
    { cells := mkCells (some Player.O) (none) (none) (none) (none) (none) (none) (none) (none), winner := none }
    { cells := mkCells (none) (none) (none) (none) (none) (none) (none) (none) (none), winner := none }
    { cells := mkCells (none) (none) (none) (none) (none) (none) (none) (none) (none), winner := none }
    { cells := mkCells (none) (none) (none) (none) (none) (none) (none) (none) (none), winner := none }
    { cells := mkCells (none) (none) (none) (none) (none) (none) (none) (none) (none), winner := none }
    { cells := mkCells (none) (none) (none) (none) (none) (none) (none) (none) (none), winner := none }
    { cells := mkCells (none) (none) (none) (none) (none) (none) (none) (none) (none), winner := none }
    { cells := mkCells (none) (none) (none) (none) (none) (none) (none) (none) (none), winner := none }
  current_player := Player.O
  active_board := some (1, 1)
  winner := none
  game_over := false
  just_ended := false

def c3S4 : Game where
  sub_boards := mkBoards
    { cells := mkCells (none) (some Player.X) (none) (none) (some Player.X) (none) (none) (none) (none), winner := none }
    { cells := mkCells (some Player.O) (none) (none) (none) (none) (none) (none) (none) (none), winner := none }
    { cells := mkCells (none) (none) (none) (none) (none) (none) (none) (none) (none), winner := none }
    { cells := mkCells (none) (none) (none) (none) (none) (none) (none) (none) (none), winner := none }
    { cells := mkCells (some Player.O) (none) (none) (none) (none) (none) (none) (none) (none), winner := none }
    { cells := mkCells (none) (none) (none) (none) (none) (none) (none) (none) (none), winner := none }
    { cells := mkCells (none) (none) (none) (none) (none) (none) (none) (none) (none), winner := none }
    { cells := mkCells (none) (none) (none) (none) (none) (none) (none) (none) (none), winner := none }
    { cells := mkCells (none) (none) (none) (none) (none) (none) (none) (none) (none), winner := none }
  current_player := Player.X
  active_board := some (0, 0)
  winner := none
  game_over := false
  just_ended := false

def c3S5 : Game where
  sub_boards := mkBoards
    { cells := mkCells (none) (some Player.X) (none) (none) (some Player.X) (none) (none) (some Player.X) (none), winner := some Player.X }
    { cells := mkCells (some Player.O) (none) (none) (none) (none) (none) (none) (none) (none), winner := none }
    { cells := mkCells (none) (none) (none) (none) (none) (none) (none) (none) (none), winner := none }
    { cells := mkCells (none) (none) (none) (none) (none) (none) (none) (none) (none), winner := none }
    { cells := mkCells (some Player.O) (none) (none) (none) (none) (none) (none) (none) (none), winner := none }
    { cells := mkCells (none) (none) (none) (none) (none) (none) (none) (none) (none), winner := none }
    { cells := mkCells (none) (none) (none) (none) (none) (none) (none) (none) (none), winner := none }
    { cells := mkCells (none) (none) (none) (none) (none) (none) (none) (none) (none), winner := none }
    { cells := mkCells (none) (none) (none) (none) (none) (none) (none) (none) (none), winner := none }
  current_player := Player.O
  active_board := some (2, 1)
  winner := none
  game_over := false
  just_ended := false

def c3S6 : Game where
  sub_boards := mkBoards
    { cells := mkCells (none) (some Player.X) (none) (none) (some Player.X) (none) (none) (some Player.X) (none), winner := some Player.X }
    { cells := mkCells (some Player.O) (none) (none) (none) (none) (none) (none) (none) (none), winner := none }
    { cells := mkCells (none) (none) (none) (none) (none) (none) (none) (none) (none), winner := none }
    { cells := mkCells (none) (none) (none) (none) (none) (none) (none) (none) (none), winner := none }
    { cells := mkCells (some Player.O) (none) (none) (none) (none) (none) (none) (none) (none), winner := none }
    { cells := mkCells (none) (none) (none) (none) (none) (none) (none) (none) (none), winner := none }
    { cells := mkCells (none) (none) (none) (none) (none) (none) (none) (none) (none), winner := none }
    { cells := mkCells (some Player.O) (none) (none) (none) (none) (none) (none) (none) (none), winner := none }
    { cells := mkCells (none) (none) (none) (none) (none) (none) (none) (none) (none), winner := none }
  current_player := Player.X
  active_board := none
  winner := none
  game_over := false
  just_ended := false

def c3S7 : Game where
  sub_boards := mkBoards
    { cells := mkCells (none) (some Player.X) (none) (none) (some Player.X) (none) (none) (some Player.X) (none), winner := some Player.X }
    { cells := mkCells (some Player.O) (none) (none) (none) (none) (none) (some Player.X) (none) (none), winner := none }
    { cells := mkCells (none) (none) (none) (none) (none) (none) (none) (none) (none), winner := none }
    { cells := mkCells (none) (none) (none) (none) (none) (none) (none) (none) (none), winner := none }
    { cells := mkCells (some Player.O) (none) (none) (none) (none) (none) (none) (none) (none), winner := none }
    { cells := mkCells (none) (none) (none) (none) (none) (none) (none) (none) (none), winner := none }
    { cells := mkCells (none) (none) (none) (none) (none) (none) (none) (none) (none), winner := none }
    { cells := mkCells (some Player.O) (none) (none) (none) (none) (none) (none) (none) (none), winner := none }
    { cells := mkCells (none) (none) (none) (none) (none) (none) (none) (none) (none), winner := none }
  current_player := Player.O
  active_board := some (2, 0)
  winner := none
  game_over := false
  just_ended := false

def c3S8 : Game where
  sub_boards := mkBoards
    { cells := mkCells (none) (some Player.X) (none) (none) (some Player.X) (none) (none) (some Player.X) (none), winner := some Player.X }
    { cells := mkCells (some Player.O) (none) (none) (none) (none) (none) (some Player.X) (none) (none), winner := none }
    { cells := mkCells (none) (none) (none) (none) (none) (none) (none) (none) (none), winner := none }
    { cells := mkCells (none) (none) (none) (none) (none) (none) (none) (none) (none), winner := none }
    { cells := mkCells (some Player.O) (none) (none) (none) (none) (none) (none) (none) (none), winner := none }
    { cells := mkCells (none) (none) (none) (none) (none) (none) (none) (none) (none), winner := none }
    { cells := mkCells (none) (some Player.O) (none) (none) (none) (none) (none) (none) (none), winner := none }
    { cells := mkCells (some Player.O) (none) (none) (none) (none) (none) (none) (none) (none), winner := none }
    { cells := mkCells (none) (none) (none) (none) (none) (none) (none) (none) (none), winner := none }
  current_player := Player.X
  active_board := some (0, 1)
  winner := none
  game_over := false
  just_ended := false

def c3S9 : Game where
  sub_boards := mkBoards
    { cells := mkCells (none) (some Player.X) (none) (none) (some Player.X) (none) (none) (some Player.X) (none), winner := some Player.X }
    { cells := mkCells (some Player.O) (none) (none) (none) (none) (none) (some Player.X) (some Player.X) (none), winner := none }
    { cells := mkCells (none) (none) (none) (none) (none) (none) (none) (none) (none), winner := none }
    { cells := mkCells (none) (none) (none) (none) (none) (none) (none) (none) (none), winner := none }
    { cells := mkCells (some Player.O) (none) (none) (none) (none) (none) (none) (none) (none), winner := none }
    { cells := mkCells (none) (none) (none) (none) (none) (none) (none) (none) (none), winner := none }
    { cells := mkCells (none) (some Player.O) (none) (none) (none) (none) (none) (none) (none), winner := none }
    { cells := mkCells (some Player.O) (none) (none) (none) (none) (none) (none) (none) (none), winner := none }
    { cells := mkCells (none) (none) (none) (none) (none) (none) (none) (none) (none), winner := none }
  current_player := Player.O
  active_board := some (2, 1)
  winner := none
  game_over := false
  just_ended := false

def c3S10 : Game where
  sub_boards := mkBoards
    { cells := mkCells (none) (some Player.X) (none) (none) (some Player.X) (none) (none) (some Player.X) (none), winner := some Player.X }
    { cells := mkCells (some Player.O) (none) (none) (none) (none) (none) (some Player.X) (some Player.X) (none), winner := none }
    { cells := mkCells (none) (none) (none) (none) (none) (none) (none) (none) (none), winner := none }
    { cells := mkCells (none) (none) (none) (none) (none) (none) (none) (none) (none), winner := none }
    { cells := mkCells (some Player.O) (none) (none) (none) (none) (none) (none) (none) (none), winner := none }
    { cells := mkCells (none) (none) (none) (none) (none) (none) (none) (none) (none), winner := none }
    { cells := mkCells (none) (some Player.O) (none) (none) (none) (none) (none) (none) (none), winner := none }
    { cells := mkCells (some Player.O) (some Player.O) (none) (none) (none) (none) (none) (none) (none), winner := none }
    { cells := mkCells (none) (none) (none) (none) (none) (none) (none) (none) (none), winner := none }
  current_player := Player.X
  active_board := some (0, 1)
  winner := none
  game_over := false
  just_ended := false

def c3S11 : Game where
  sub_boards := mkBoards
    { cells := mkCells (none) (some Player.X) (none) (none) (some Player.X) (none) (none) (some Player.X) (none), winner := some Player.X }
    { cells := mkCells (some Player.O) (none) (none) (none) (none) (none) (some Player.X) (some Player.X) (some Player.X), winner := some Player.X }
    { cells := mkCells (none) (none) (none) (none) (none) (none) (none) (none) (none), winner := none }
    { cells := mkCells (none) (none) (none) (none) (none) (none) (none) (none) (none), winner := none }
    { cells := mkCells (some Player.O) (none) (none) (none) (none) (none) (none) (none) (none), winner := none }
    { cells := mkCells (none) (none) (none) (none) (none) (none) (none) (none) (none), winner := none }
    { cells := mkCells (none) (some Player.O) (none) (none) (none) (none) (none) (none) (none), winner := none }
    { cells := mkCells (some Player.O) (some Player.O) (none) (none) (none) (none) (none) (none) (none), winner := none }
    { cells := mkCells (none) (none) (none) (none) (none) (none) (none) (none) (none), winner := none }
  current_player := Player.O
  active_board := some (2, 2)
  winner := none
  game_over := false
  just_ended := false

def c3S12 : Game where
  sub_boards := mkBoards
    { cells := mkCells (none) (some Player.X) (none) (none) (some Player.X) (none) (none) (some Player.X) (none), winner := some Player.X }
    { cells := mkCells (some Player.O) (none) (none) (none) (none) (none) (some Player.X) (some Player.X) (some Player.X), winner := some Player.X }
    { cells := mkCells (none) (none) (none) (none) (none) (none) (none) (none) (none), winner := none }
    { cells := mkCells (none) (none) (none) (none) (none) (none) (none) (none) (none), winner := none }
    { cells := mkCells (some Player.O) (none) (none) (none) (none) (none) (none) (none) (none), winner := none }
    { cells := mkCells (none) (none) (none) (none) (none) (none) (none) (none) (none), winner := none }
    { cells := mkCells (none) (some Player.O) (none) (none) (none) (none) (none) (none) (none), winner := none }
    { cells := mkCells (some Player.O) (some Player.O) (none) (none) (none) (none) (none) (none) (none), winner := none }
    { cells := mkCells (none) (some Player.O) (none) (none) (none) (none) (none) (none) (none), winner := none }
  current_player := Player.X
  active_board := none
  winner := none
  game_over := false
  just_ended := false

def c3S13 : Game where
  sub_boards := mkBoards
    { cells := mkCells (none) (some Player.X) (none) (none) (some Player.X) (none) (none) (some Player.X) (none), winner := some Player.X }
    { cells := mkCells (some Player.O) (none) (none) (none) (none) (none) (some Player.X) (some Player.X) (some Player.X), winner := some Player.X }
    { cells := mkCells (none) (none) (none) (none) (none) (none) (some Player.X) (none) (none), winner := none }
    { cells := mkCells (none) (none) (none) (none) (none) (none) (none) (none) (none), winner := none }
    { cells := mkCells (some Player.O) (none) (none) (none) (none) (none) (none) (none) (none), winner := none }
    { cells := mkCells (none) (none) (none) (none) (none) (none) (none) (none) (none), winner := none }
    { cells := mkCells (none) (some Player.O) (none) (none) (none) (none) (none) (none) (none), winner := none }
    { cells := mkCells (some Player.O) (some Player.O) (none) (none) (none) (none) (none) (none) (none), winner := none }
    { cells := mkCells (none) (some Player.O) (none) (none) (none) (none) (none) (none) (none), winner := none }
  current_player := Player.O
  active_board := some (2, 0)
  winner := none
  game_over := false
  just_ended := false

def c3S14 : Game where
  sub_boards := mkBoards
    { cells := mkCells (none) (some Player.X) (none) (none) (some Player.X) (none) (none) (some Player.X) (none), winner := some Player.X }
    { cells := mkCells (some Player.O) (none) (none) (none) (none) (none) (some Player.X) (some Player.X) (some Player.X), winner := some Player.X }
    { cells := mkCells (none) (none) (none) (none) (none) (none) (some Player.X) (none) (none), winner := none }
    { cells := mkCells (none) (none) (none) (none) (none) (none) (none) (none) (none), winner := none }
    { cells := mkCells (some Player.O) (none) (none) (none) (none) (none) (none) (none) (none), winner := none }
    { cells := mkCells (none) (none) (none) (none) (none) (none) (none) (none) (none), winner := none }
    { cells := mkCells (none) (some Player.O) (some Player.O) (none) (none) (none) (none) (none) (none), winner := none }
    { cells := mkCells (some Player.O) (some Player.O) (none) (none) (none) (none) (none) (none) (none), winner := none }
    { cells := mkCells (none) (some Player.O) (none) (none) (none) (none) (none) (none) (none), winner := none }
  current_player := Player.X
  active_board := some (0, 2)
  winner := none
  game_over := false
  just_ended := false

def c3S15 : Game where
  sub_boards := mkBoards
    { cells := mkCells (none) (some Player.X) (none) (none) (some Player.X) (none) (none) (some Player.X) (none), winner := some Player.X }
    { cells := mkCells (some Player.O) (none) (none) (none) (none) (none) (some Player.X) (some Player.X) (some Player.X), winner := some Player.X }
    { cells := mkCells (none) (none) (none) (none) (none) (none) (some Player.X) (some Player.X) (none), winner := none }
    { cells := mkCells (none) (none) (none) (none) (none) (none) (none) (none) (none), winner := none }
    { cells := mkCells (some Player.O) (none) (none) (none) (none) (none) (none) (none) (none), winner := none }
    { cells := mkCells (none) (none) (none) (none) (none) (none) (none) (none) (none), winner := none }
    { cells := mkCells (none) (some Player.O) (some Player.O) (none) (none) (none) (none) (none) (none), winner := none }
    { cells := mkCells (some Player.O) (some Player.O) (none) (none) (none) (none) (none) (none) (none), winner := none }
    { cells := mkCells (none) (some Player.O) (none) (none) (none) (none) (none) (none) (none), winner := none }
  current_player := Player.O
  active_board := some (2, 1)
  winner := none
  game_over := false
  just_ended := false

def c3S16 : Game where
  sub_boards := mkBoards
    { cells := mkCells (none) (some Player.X) (none) (none) (some Player.X) (none) (none) (some Player.X) (none), winner := some Player.X }
    { cells := mkCells (some Player.O) (none) (none) (none) (none) (none) (some Player.X) (some Player.X) (some Player.X), winner := some Player.X }
    { cells := mkCells (none) (none) (none) (none) (none) (none) (some Player.X) (some Player.X) (none), winner := none }
    { cells := mkCells (none) (none) (none) (none) (none) (none) (none) (none) (none), winner := none }
    { cells := mkCells (some Player.O) (none) (none) (none) (none) (none) (none) (none) (none), winner := none }
    { cells := mkCells (none) (none) (none) (none) (none) (none) (none) (none) (none), winner := none }
    { cells := mkCells (none) (some Player.O) (some Player.O) (none) (none) (none) (none) (none) (none), winner := none }
    { cells := mkCells (some Player.O) (some Player.O) (some Player.O) (none) (none) (none) (none) (none) (none), winner := some Player.O }
    { cells := mkCells (none) (some Player.O) (none) (none) (none) (none) (none) (none) (none), winner := none }
  current_player := Player.X
  active_board := some (0, 2)
  winner := none
  game_over := false
  just_ended := false

def c3S17 : Game where
  sub_boards := mkBoards
    { cells := mkCells (none) (some Player.X) (none) (none) (some Player.X) (none) (none) (some Player.X) (none), winner := some Player.X }
    { cells := mkCells (some Player.O) (none) (none) (none) (none) (none) (some Player.X) (some Player.X) (some Player.X), winner := some Player.X }
    { cells := mkCells (none) (none) (none) (none) (none) (none) (some Player.X) (some Player.X) (some Player.X), winner := some Player.X }
    { cells := mkCells (none) (none) (none) (none) (none) (none) (none) (none) (none), winner := none }
    { cells := mkCells (some Player.O) (none) (none) (none) (none) (none) (none) (none) (none), winner := none }
    { cells := mkCells (none) (none) (none) (none) (none) (none) (none) (none) (none), winner := none }
    { cells := mkCells (none) (some Player.O) (some Player.O) (none) (none) (none) (none) (none) (none), winner := none }
    { cells := mkCells (some Player.O) (some Player.O) (some Player.O) (none) (none) (none) (none) (none) (none), winner := some Player.O }
    { cells := mkCells (none) (some Player.O) (none) (none) (none) (none) (none) (none) (none), winner := none }
  current_player := Player.X
  active_board := some (0, 2)
  winner := some Player.X
  game_over := true
  just_ended := true

/-- C3 counterexample: in the reachable position after `c3Moves` (all 16
moves succeed), the successful move `(0,2,2,2)` makes `game_over` true;
sub-board `(2,2)` is playable in the resulting state, yet `active_board`
is not `(2,2)` — it stays at its pre-move value `(0,2)`, refuting the
claim for moves that end the game. -/
theorem active_board_transition_counterexample :
    (Game.applyMovesOk Game.init c3Moves).1 = true ∧
    ((Game.applyMovesOk Game.init c3Moves).2.make_move 0 2 2 2).1 = true ∧
    ((Game.applyMovesOk Game.init c3Moves).2.make_move 0 2 2 2).2.game_over = true ∧
    (((Game.applyMovesOk Game.init c3Moves).2.make_move 0 2 2 2).2.sub_boards 2 2).is_playable
      = true ∧
    ((Game.applyMovesOk Game.init c3Moves).2.make_move 0 2 2 2).2.active_board =
      some (0, 2) ∧
    ((Game.applyMovesOk Game.init c3Moves).2.make_move 0 2 2 2).2.active_board ≠
      some (2, 2) := by
  have h1 : Game.make_move Game.init 0 0 0 1 = (true, c3S1) := prodStep (by decide) (by decide)
  have h2 : Game.make_move c3S1 0 1 0 0 = (true, c3S2) := prodStep (by decide) (by decide)
  have h3 : Game.make_move c3S2 0 0 1 1 = (true, c3S3) := prodStep (by decide) (by decide)
  have h4 : Game.make_move c3S3 1 1 0 0 = (true, c3S4) := prodStep (by decide) (by decide)
  have h5 : Game.make_move c3S4 0 0 2 1 = (true, c3S5) := prodStep (by decide) (by decide)
  have h6 : Game.make_move c3S5 2 1 0 0 = (true, c3S6) := prodStep (by decide) (by decide)
  have h7 : Game.make_move c3S6 0 1 2 0 = (true, c3S7) := prodStep (by decide) (by decide)
  have h8 : Game.make_move c3S7 2 0 0 1 = (true, c3S8) := prodStep (by decide) (by decide)
  have h9 : Game.make_move c3S8 0 1 2 1 = (true, c3S9) := prodStep (by decide) (by decide)
  have h10 : Game.make_move c3S9 2 1 0 1 = (true, c3S10) := prodStep (by decide) (by decide)
  have h11 : Game.make_move c3S10 0 1 2 2 = (true, c3S11) := prodStep (by decide) (by decide)
  have h12 : Game.make_move c3S11 2 2 0 1 = (true, c3S12) := prodStep (by decide) (by decide)
  have h13 : Game.make_move c3S12 0 2 2 0 = (true, c3S13) := prodStep (by decide) (by decide)
  have h14 : Game.make_move c3S13 2 0 0 2 = (true, c3S14) := prodStep (by decide) (by decide)
  have h15 : Game.make_move c3S14 0 2 2 1 = (true, c3S15) := prodStep (by decide) (by decide)
  have h16 : Game.make_move c3S15 2 1 0 2 = (true, c3S16) := prodStep (by decide) (by decide)
  have h17 : Game.make_move c3S16 0 2 2 2 = (true, c3S17) := prodStep (by decide) (by decide)
  have e : Game.applyMovesOk Game.init c3Moves = (true, c3S16) := by
    simp only [c3Moves, Game.applyMovesOk, h1, h2, h3, h4, h5, h6, h7, h8, h9,
      h10, h11, h12, h13, h14, h15, h16, Bool.true_and]
  rw [e]
  rw [show ((true, c3S16) : Bool × Game).2 = c3S16 from rfl, h17]
  refine ⟨rfl, rfl, by decide, by decide, by decide, by decide⟩

/-- C2 witness: replaying the opening move on the same cell fails and
leaves the state unchanged, and a finished game rejects every move. -/
theorem make_move_fail_no_mutation_witness :
    ((Game.init.make_move 0 0 0 0).2.make_move 0 0 0 0).2 = (Game.init.make_move 0 0 0 0).2 :=
  (make_move_fail_no_mutation (Game.init.make_move 0 0 0 0).2 0 0 0 0).1 (by decide)

theorem filter_flatMap_eq {α β : Type} (l : List α) (f : α → List β) (p : β → Bool) :
    (l.flatMap f).filter p = l.flatMap fun a => (f a).filter p := by
  induction l with
  | nil => rfl
  | cons x xs ih => simp [List.flatMap_cons, List.filter_append, ih]

/-- `is_valid_board` as the conjunction of the three board-level
legality conditions. -/
theorem is_valid_board_iff (g : Game) (br bc : Fin 3) :
    g.is_valid_board br bc =
      ((g.sub_boards br bc).is_playable &&
       (decide (g.active_board = none) || decide (g.active_board = some (br, bc))) &&
       !g.game_over) := by
  unfold Game.is_valid_board
  by_cases hgo : g.game_over = true
  · simp [hgo]
  · have hgo' : g.game_over = false := Bool.eq_false_iff.mpr hgo
    cases hab : g.active_board with
    | none => by_cases hp : (g.sub_boards br bc).is_playable = true <;> simp [hgo', hp]
    | some ab =>
        by_cases hne : (br, bc) = ab
        · by_cases hp : (g.sub_boards br bc).is_playable = true <;>
            simp [hgo', hp, hab, hne]
        · by_cases hp : (g.sub_boards br bc).is_playable = true <;>
            simp [hgo', hp, hab, hne, Ne.symm hne]

/-- Row-major enumeration of all 81 move tuples: boards in row-major
order, then cells in row-major order. -/
def allMoves : List Move :=
  (List.finRange 3).flatMap fun br =>
    (List.finRange 3).flatMap fun bc =>
      (List.finRange 3).flatMap fun cr =>
        (List.finRange 3).map fun cc => (br, bc, cr, cc)

/-- The legality predicate of claim C7: sub-board playable, active-board
constraint satisfied, target cell empty, game not over. -/
def claimValid (g : Game) (m : Move) : Bool :=
  (g.sub_boards m.1 m.2.1).is_playable &&
  (decide (g.active_board = none) || decide (g.active_board = some (m.1, m.2.1))) &&
  decide ((g.sub_boards m.1 m.2.1).cells m.2.2.1 m.2.2.2 = none) &&
  !g.game_over

theorem valid_moves_eq_filter (g : Game) :
    g.get_valid_moves = allMoves.filter (claimValid g) := by
  unfold Game.get_valid_moves allMoves
  rw [filter_flatMap_eq]
  congr 1
  funext br
  rw [filter_flatMap_eq]
  congr 1
  funext bc
  rw [filter_flatMap_eq]
  by_cases hvb : g.is_valid_board br bc = true
  · have hc := (is_valid_board_iff g br bc) ▸ hvb
    simp only [Bool.and_eq_true] at hc
    obtain ⟨⟨hp, ha⟩, hgo⟩ := hc
    simp only [hvb, if_true]
    congr 1
    funext cr
    rw [List.filter_map]
    congr 1
    apply List.filter_congr
    intro cc _
    simp [claimValid, hp, ha, hgo, Function.comp]
  · have hvb' : g.is_valid_board br bc = false := Bool.eq_false_iff.mpr hvb
    have hc := (is_valid_board_iff g br bc) ▸ hvb'
    simp only [hvb', Bool.false_eq_true, if_false]
    have hall : ∀ cr : Fin 3, ∀ m ∈ (List.finRange 3).map
        (fun cc => ((br, bc, cr, cc) : Move)), claimValid g m = false := by
      intro cr m hm
      simp only [List.mem_map] at hm
      obtain ⟨cc, _, rfl⟩ := hm
      have hgen : ∀ a b c d : Bool,
          ((a && b && !d) = false) → ((a && b && c && !d) = false) := by decide
      simp only [claimValid]
      exact hgen _ _ _ _ hc
    have : ∀ cr : Fin 3, ((List.finRange 3).map
        (fun cc => ((br, bc, cr, cc) : Move))).filter (claimValid g) = [] := by
      intro cr
      rw [List.filter_eq_nil_iff]
      intro m hm
      exact fun hx => by rw [hall cr m hm] at hx; exact Bool.false_ne_true hx
    simp [this]

/-- C7: `get_valid_moves` returns exactly the tuples `(br,bc,cr,cc)` whose
sub-board is playable, allowed by the active-board constraint, with an
empty target cell and the game not over, in row-major order over boards
and then row-major order over cells. -/
theorem get_valid_moves_spec (g : Game) :
    g.get_valid_moves = allMoves.filter (claimValid g) :=
  valid_moves_eq_filter g

/-! ## The numpy search model (`AIPlayer`)

`_to_numpy` encodes the position as a 9x9 cell array and a 3x3 macro
array over `{-1, 0, 1}` (1 = the AI itself, -1 = its opponent), plus the
active-board index.  The search functions below are translated from
`_minimax_numpy`, `_evaluate_numpy`, `_bigbrain_move` and `_medium_move`;
`float('-inf')`/`float('inf')` become the bottom/top elements of the
extended integers `WithBot (WithTop ℤ)`. -/

abbrev Board9 := Fin 9 → Fin 9 → Int

abbrev Macro := Fin 3 → Fin 3 → Int

def mkIdx (b c : Fin 3) : Fin 9 :=
  ⟨b.val * 3 + c.val, by have h1 := b.isLt; have h2 := c.isLt; omega⟩

def fin3div (r : Fin 9) : Fin 3 := ⟨r.val / 3, by have := r.isLt; omega⟩

def fin3mod (r : Fin 9) : Fin 3 := ⟨r.val % 3, by have := r.isLt; omega⟩

/-- `map_player`: the AI's own symbol maps to 1, the opponent to -1. -/
def pval (sym p : Player) : Int := if p = sym then 1 else -1

/-- The 9x9 board of `_to_numpy`: entry `(r, c)` is sub-board
`(r / 3, c / 3)`, cell `(r % 3, c % 3)`. -/
def toBoard (sym : Player) (g : Game) : Board9 := fun r c =>
  match (g.sub_boards (fin3div r) (fin3div c)).cells (fin3mod r) (fin3mod c) with
  | none => 0
  | some p => pval sym p

/-- The 3x3 macro board of `_to_numpy`: the sub-board winners. -/
def toMacro (sym : Player) (g : Game) : Macro := fun br bc =>
  match (g.sub_boards br bc).winner with
  | none => 0
  | some p => pval sym p

def colSum (m : Macro) (c : Fin 3) : Int :=
  ((List.finRange 3).map fun r => m r c).sum

def rowSum (m : Macro) (r : Fin 3) : Int :=
  ((List.finRange 3).map fun c => m r c).sum

def trace3 (m : Macro) : Int := m 0 0 + m 1 1 + m 2 2

/-- `np.trace(np.fliplr(m))`: the anti-diagonal sum. -/
def antitrace3 (m : Macro) : Int := m 0 2 + m 1 1 + m 2 0

/-- The win test for the searching player in `_minimax_numpy`: some
macro line sums to 3. -/
def selfWinB (m : Macro) : Bool :=
  ((List.finRange 3).any fun c => decide (colSum m c = 3)) ||
  ((List.finRange 3).any fun r => decide (rowSum m r = 3)) ||
  decide (trace3 m = 3) || decide (antitrace3 m = 3)

/-- The loss test in `_minimax_numpy`: some macro line sums to -3. -/
def oppWinB (m : Macro) : Bool :=
  ((List.finRange 3).any fun c => decide (colSum m c = -3)) ||
  ((List.finRange 3).any fun r => decide (rowSum m r = -3)) ||
  decide (trace3 m = -3) || decide (antitrace3 m = -3)

def subColSum (b : Board9) (br bc j : Fin 3) : Int :=
  ((List.finRange 3).map fun i => b (mkIdx br i) (mkIdx bc j)).sum

def subRowSum (b : Board9) (br bc i : Fin 3) : Int :=
  ((List.finRange 3).map fun j => b (mkIdx br i) (mkIdx bc j)).sum

def subTrace (b : Board9) (br bc : Fin 3) : Int :=
  b (mkIdx br 0) (mkIdx bc 0) + b (mkIdx br 1) (mkIdx bc 1) + b (mkIdx br 2) (mkIdx bc 2)

def subAntitrace (b : Board9) (br bc : Fin 3) : Int :=
  b (mkIdx br 0) (mkIdx bc 2) + b (mkIdx br 1) (mkIdx bc 1) + b (mkIdx br 2) (mkIdx bc 0)

/-- The sub-board win test used after a simulated move: some absolute
line sum of the 3x3 slice equals 3. -/
def subWon (b : Board9) (br bc : Fin 3) : Bool :=
  ((List.finRange 3).any fun j => decide ((subColSum b br bc j).natAbs = 3)) ||
  ((List.finRange 3).any fun i => decide ((subRowSum b br bc i).natAbs = 3)) ||
  decide ((subTrace b br bc).natAbs = 3) || decide ((subAntitrace b br bc).natAbs = 3)

/-- `np.all(sb != 0)` on the 3x3 slice at `(br, bc)`. -/
def subFull (b : Board9) (br bc : Fin 3) : Bool :=
  (List.finRange 3).all fun i =>
    (List.finRange 3).all fun j => decide (b (mkIdx br i) (mkIdx bc j) ≠ 0)

/-- `np.argwhere(sb == 0)` in row-major order. -/
def empties (b : Board9) (br bc : Fin 3) : List (Fin 3 × Fin 3) :=
  (List.finRange 3).flatMap fun i =>
    (List.finRange 3).filterMap fun j =>
      if b (mkIdx br i) (mkIdx bc j) = 0 then some (i, j) else none

/-- The move enumeration inside `_minimax_numpy`. -/
def genMoves (b : Board9) (m : Macro) (act : Option (Fin 3 × Fin 3)) : List Move :=
  match act with
  | none =>
      (List.finRange 3).flatMap fun br =>
        (List.finRange 3).flatMap fun bc =>
          if m br bc = 0 then
            if subFull b br bc then []
            else (empties b br bc).map fun p => (br, bc, p.1, p.2)
          else []
  | some (abr, abc) => (empties b abr abc).map fun p => (abr, abc, p.1, p.2)

def setCell (b : Board9) (r c : Fin 9) (v : Int) : Board9 := fun r' c' =>
  if r' = r ∧ c' = c then v else b r' c'

def setMac (m : Macro) (r c : Fin 3) (v : Int) : Macro := fun r' c' =>
  if r' = r ∧ c' = c then v else m r' c'

/-- Applying a simulated move for value `v` (1 = self, -1 = opponent):
write the cell, set the macro entry on a completed sub-board line, and
compute the next active board (None when the target sub-board is
decided or full). -/
def applyMove (b : Board9) (m : Macro) (mv : Move) (v : Int) :
    Board9 × Macro × Option (Fin 3 × Fin 3) :=
  let nb := setCell b (mkIdx mv.1 mv.2.2.1) (mkIdx mv.2.1 mv.2.2.2) v
  let nm := if subWon nb mv.1 mv.2.1 then setMac m mv.1 mv.2.1 v else m
  let nxt : Option (Fin 3 × Fin 3) :=
    if nm mv.2.2.1 mv.2.2.2 ≠ 0 ∨ subFull nb mv.2.2.1 mv.2.2.2 then none
    else some (mv.2.2.1, mv.2.2.2)
  (nb, nm, nxt)

/-- `_evaluate_numpy`: macro material, macro near-win lines, masked cell
sum over still-open sub-boards, and the center-macro bonus. -/
def evaluate (b : Board9) (m : Macro) : Int :=
  let macroSum := ((List.finRange 3).map fun r => rowSum m r).sum
  let lines := ((List.finRange 3).map fun r => rowSum m r) ++
    ((List.finRange 3).map fun c => colSum m c) ++ [trace3 m] ++ [antitrace3 m]
  let score1 := macroSum * 500
  let score2 := score1 + ((lines.filter fun x => x = 2).length : Int) * 50
    - ((lines.filter fun x => x = -2).length : Int) * 50
  let maskedSum := ((List.finRange 9).map fun r =>
    ((List.finRange 9).map fun c =>
      b r c * (if m (fin3div r) (fin3div c) = 0 then 1 else 0)).sum).sum
  let score3 := score2 + maskedSum * 2
  if m 1 1 = 1 then score3 + 50 else score3

/-- Extended integers standing for Python floats restricted to the
values the search manipulates: integers plus `float('-inf')` (`⊥`) and
`float('inf')` (`⊤`). -/
abbrev EInt := WithBot (WithTop ℤ)

def iE (n : ℤ) : EInt := ((n : WithTop ℤ) : EInt)

def EInt.toIntD (e : EInt) : ℤ := WithTop.untop' 0 (WithBot.unbot' ⊤ e)

/-- The maximizing loop of `_minimax_numpy`: track the running best and
alpha, stop as soon as `beta <= alpha`. -/
def maxLoop (f : Move → EInt → ℤ) (beta : EInt) :
    List Move → EInt → EInt → EInt
  | [], best, _ => best
  | mv :: ms, best, alpha =>
      let s := f mv alpha
      let best' := max best (iE s)
      let alpha' := max alpha (iE s)
      if beta ≤ alpha' then best' else maxLoop f beta ms best' alpha'

/-- The minimizing loop of `_minimax_numpy`. -/
def minLoop (f : Move → EInt → ℤ) (alpha : EInt) :
    List Move → EInt → EInt → EInt
  | [], best, _ => best
  | mv :: ms, best, beta =>
      let s := f mv beta
      let best' := min best (iE s)
      let beta' := min beta (iE s)
      if beta' ≤ alpha then best' else minLoop f alpha ms best' beta'

/-- `AIPlayer._minimax_numpy`: terminal meta-lines first (scores biased
by remaining depth), then the evaluation cutoff, then move generation
(an empty list scores 0), then the alpha-beta loops. -/
def minimaxAB (depth : Nat) (b : Board9) (m : Macro)
    (act : Option (Fin 3 × Fin 3)) (alpha beta : EInt) (isMax : Bool) : ℤ :=
  if selfWinB m then 1000 + (depth : ℤ)
  else if oppWinB m then -1000 - (depth : ℤ)
  else
    match depth with
    | 0 => evaluate b m
    | d + 1 =>
        let moves := genMoves b m act
        if moves = [] then 0
        else if isMax then
          (maxLoop (fun mv a =>
            let c := applyMove b m mv 1
            minimaxAB d c.1 c.2.1 c.2.2 a beta false) beta moves ⊥ alpha).toIntD
        else
          (minLoop (fun mv bt =>
            let c := applyMove b m mv (-1)
            minimaxAB d c.1 c.2.1 c.2.2 alpha bt true) alpha moves ⊤ beta).toIntD

/-- Modelled from the spec: full (unpruned) minimax over the same move
enumeration, terminal scoring and evaluation as `_minimax_numpy` — the
reference the spec's alpha-beta equivalence property compares against.
The running best starts at `-inf`/`+inf` and every child is folded in
with max/min; no pruning. -/
def minimaxFull (depth : Nat) (b : Board9) (m : Macro)
    (act : Option (Fin 3 × Fin 3)) (isMax : Bool) : ℤ :=
  if selfWinB m then 1000 + (depth : ℤ)
  else if oppWinB m then -1000 - (depth : ℤ)
  else
    match depth with
    | 0 => evaluate b m
    | d + 1 =>
        let moves := genMoves b m act
        if moves = [] then 0
        else if isMax then
          (moves.foldr (fun mv acc =>
            let c := applyMove b m mv 1
            max (iE (minimaxFull d c.1 c.2.1 c.2.2 false)) acc) (⊥ : EInt)).toIntD
        else
          (moves.foldr (fun mv acc =>
            let c := applyMove b m mv (-1)
            min (iE (minimaxFull d c.1 c.2.1 c.2.2 true)) acc) (⊤ : EInt)).toIntD

/-- `move_score` of `_bigbrain_move`: 2 for the center cell, 1 for a
corner cell, 0 for an edge cell. -/
def moveScoreKey (mv : Move) : Nat :=
  if mv.2.2.1 = 1 ∧ mv.2.2.2 = 1 then 2
  else if (mv.2.2.1, mv.2.2.2) ∈
      ([(0, 0), (0, 2), (2, 0), (2, 2)] : List (Fin 3 × Fin 3)) then 1
  else 0

/-- Insert a later element behind every already-placed element of equal
or higher key: the stable descending insertion underlying
`list.sort(key=move_score, reverse=True)`. -/
def insertDesc (x : Move) : List Move → List Move
  | [] => [x]
  | y :: ys => if moveScoreKey y < moveScoreKey x then x :: y :: ys else y :: insertDesc x ys

/-- Python's stable `list.sort(key=move_score, reverse=True)`. -/
def pySortDesc (l : List Move) : List Move :=
  l.foldl (fun acc x => insertDesc x acc) []

/-- The root loop shared by `_bigbrain_move` and `_medium_move`: track
the best move and score, raise alpha, break if `beta <= alpha` (beta is
`inf` at the root).  Returns `none` exactly when the Python code would
fall back to `random.choice(valid_moves)`. -/
def rootLoop (f : Move → EInt → ℤ) :
    List Move → Option Move → EInt → EInt → Option Move
  | [], best_move, _, _ => best_move
  | mv :: ms, best_move, best_score, alpha =>
      let s := f mv alpha
      let bm' := if best_score < iE s then some mv else best_move
      let bs' := if best_score < iE s then iE s else best_score
      let alpha' := max alpha (iE s)
      if (⊤ : EInt) ≤ alpha' then bm' else rootLoop f ms bm' bs' alpha'

/-- Adaptive depth of `_bigbrain_move`: `4 if n > 30 else 5 if n > 10
else 6`. -/
def adaptiveDepth (n : Nat) : Nat := if n > 30 then 4 else if n > 10 then 5 else 6

/-- The search of `_bigbrain_move` at a given root depth: sort the
moves, then run the root alpha-beta loop with children at
`maxDepth - 1`. -/
def bigbrainSearch (maxDepth : Nat) (b : Board9) (m : Macro)
    (moves : List Move) : Option Move :=
  rootLoop (fun mv a =>
    let c := applyMove b m mv 1
    minimaxAB (maxDepth - 1) c.1 c.2.1 c.2.2 a ⊤ false) (pySortDesc moves) none ⊥ ⊥

/-- The search of `_medium_move`: fixed `max_depth = 2`, no move
ordering. -/
def mediumSearch (b : Board9) (m : Macro) (moves : List Move) : Option Move :=
  rootLoop (fun mv a =>
    let c := applyMove b m mv 1
    minimaxAB 1 c.1 c.2.1 c.2.2 a ⊤ false) moves none ⊥ ⊥

inductive Difficulty : Type
  | easy : Difficulty
  | medium : Difficulty
  | bigBrain : Difficulty

/-- `AIPlayer.get_move`: `None` when the game is over or it is not this
player's turn or no valid move exists; otherwise dispatch on the
difficulty.  `random.choice` (the Easy strategy and the defensive
fallback of the search strategies) is modelled as an unspecified pick
from the non-empty move list — the claims below depend only on it
returning an element. -/
def AIPlayer.get_move (sym : Player) (diff : Difficulty) (g : Game) : Option Move :=
  if g.game_over then none
  else if g.current_player ≠ sym then none
  else
    let valid_moves := g.get_valid_moves
    if valid_moves = [] then none
    else
      match diff with
      | Difficulty.easy => valid_moves.head?
      | Difficulty.medium =>
          match mediumSearch (toBoard sym g) (toMacro sym g) valid_moves with
          | some mv => some mv
          | none => valid_moves.head?
      | Difficulty.bigBrain =>
          match bigbrainSearch (adaptiveDepth valid_moves.length)
              (toBoard sym g) (toMacro sym g) valid_moves with
          | some mv => some mv
          | none => valid_moves.head?

/-- Build a 3x3 macro array from nine row-major entries. -/
def mkMac (a00 a01 a02 a10 a11 a12 a20 a21 a22 : Int) : Macro := fun r c =>
  match r.val, c.val with
  | 0, 0 => a00
  | 0, 1 => a01
  | 0, 2 => a02
  | 1, 0 => a10
  | 1, 1 => a11
  | 1, 2 => a12
  | 2, 0 => a20
  | 2, 1 => a21
  | _, _ => a22

/-- The all-empty 9x9 board. -/
def bZero : Board9 := fun _ _ => 0

/-- A finished drawn macro board: every sub-board decided, no meta
line. -/
def mDrawn : Macro := mkMac 1 1 (-1) (-1) (-1) 1 1 (-1) 1

/-- A macro board where both players own a completed meta line. -/
def mBoth : Macro := mkMac 1 1 1 (-1) (-1) (-1) 0 0 0

/-- A macro board where the searching player owns the top row. -/
def mSelf : Macro := mkMac 1 1 1 0 0 0 0 0 0

/-- A macro board where the opponent owns the top row. -/
def mOpp : Macro := mkMac (-1) (-1) (-1) 0 0 0 0 0 0

/-- C6 (amended): for every position and remaining depth, the search
returns `1000 + d` when the searching player has a completed macro line
(this test comes first, so it wins when both players have one),
`-(1000 + d)` when only the opponent has one, and `0` when `d ≥ 1`, no
macro line is complete and no legal move exists; at `d = 0` a moveless
position without a winner returns the heuristic evaluation instead. -/
theorem minimax_terminal_scores (d : Nat) (b : Board9) (m : Macro)
    (act : Option (Fin 3 × Fin 3)) (alpha beta : EInt) (isMax : Bool) :
    (selfWinB m = true → minimaxAB d b m act alpha beta isMax = 1000 + (d : ℤ)) ∧
    (selfWinB m = false → oppWinB m = true →
      minimaxAB d b m act alpha beta isMax = -1000 - (d : ℤ)) ∧
    (1 ≤ d → selfWinB m = false → oppWinB m = false → genMoves b m act = [] →
      minimaxAB d b m act alpha beta isMax = 0) := by
  refine ⟨fun hs => ?_, fun hns ho => ?_, fun hd hns hno hmv => ?_⟩
  · unfold minimaxAB
    cases d <;> simp [hs]
  · unfold minimaxAB
    cases d <;> simp [hns, ho]
  · obtain ⟨d', rfl⟩ : ∃ d', d = d' + 1 := ⟨d - 1, by omega⟩
    unfold minimaxAB
    simp [hns, hno, hmv]

/-- C6 witness: the three amended cases at concrete macro boards. -/
theorem minimax_terminal_scores_witness :
    minimaxAB 0 bZero mSelf none ⊥ ⊤ true = 1000 + ((0 : Nat) : ℤ) ∧
    minimaxAB 0 bZero mOpp none ⊥ ⊤ true = -1000 - ((0 : Nat) : ℤ) ∧
    minimaxAB 1 bZero mDrawn none ⊥ ⊤ true = 0 :=
  ⟨(minimax_terminal_scores 0 bZero mSelf none ⊥ ⊤ true).1 (by decide),
   (minimax_terminal_scores 0 bZero mOpp none ⊥ ⊤ true).2.1 (by decide) (by decide),
   (minimax_terminal_scores 1 bZero mDrawn none ⊥ ⊤ true).2.2 (by decide)
     (by decide) (by decide) (by decide)⟩

/-- C6 counterexample: at remaining depth 0 a drawn, moveless position
scores the heuristic value 500, not 0; and when both players have a
completed macro line the search returns `1000 + d` (the self-win test
runs first), not `-(1000 + d)` although "the opponent has one". -/
theorem minimax_terminal_scores_counterexample :
    genMoves bZero mDrawn none = [] ∧
    minimaxAB 0 bZero mDrawn none ⊥ ⊤ true = 500 ∧ (500 : ℤ) ≠ 0 ∧
    minimaxAB 1 bZero mBoth none ⊥ ⊤ true = 1001 ∧
    ((1001 : ℤ) ≠ -1000 - ((1 : Nat) : ℤ)) := by
  refine ⟨by decide, by decide, by decide, by decide, by decide⟩

/-- The list of the 8 macro line sums built by `_evaluate_numpy` (rows,
columns, trace, anti-trace). -/
def metaLines (m : Macro) : List Int :=
  ((List.finRange 3).map fun r => rowSum m r) ++
  ((List.finRange 3).map fun c => colSum m c) ++ [trace3 m] ++ [antitrace3 m]

/-- The 3x3 cell slice of sub-board `(br, bc)` as its own grid. -/
def subCells (b : Board9) (br bc : Fin 3) : Fin 3 → Fin 3 → Int :=
  fun i j => b (mkIdx br i) (mkIdx bc j)

/-- Plain material sum of one sub-board's cells. -/
def subSum (b : Board9) (br bc : Fin 3) : Int :=
  ∑ i : Fin 3, ∑ j : Fin 3, b (mkIdx br i) (mkIdx bc j)

/-- Sum of the cell material of every still-open sub-board. -/
def playableLocalSum (b : Board9) (m : Macro) : Int :=
  ∑ br : Fin 3, ∑ bc : Fin 3, if m br bc = 0 then subSum b br bc else 0

/-- The positional multipliers claim C8 asserts (center 3, corner 2,
edge 1), stated from the spec's words. -/
def claimedWeight : Macro := mkMac 2 1 2 1 3 1 2 1 2

/-- Modelled from the spec: an evaluator that "folds in each
still-playable sub-board's local score" with the claimed positional
multipliers, for an arbitrary local scoring function `L` and an
arbitrary remainder `K` collecting the macro-level terms (which do not
depend on the cells of undecided sub-boards). -/
def claimedFold (K : Int) (L : (Fin 3 → Fin 3 → Int) → Int) (b : Board9) : Int :=
  K + ∑ br : Fin 3, ∑ bc : Fin 3, claimedWeight br bc * L (subCells b br bc)

/-- A board with a single own mark at cell `(R, C)`. -/
def bOne (R C : Fin 9) : Board9 := fun r c => if r = R ∧ c = C then 1 else 0

/-- The all-zero macro board (no sub-board decided). -/
def mZero : Macro := fun _ _ => 0

/-- The one-mark local pattern (a mark at local cell (1,1)). -/
def cm : Fin 3 → Fin 3 → Int := fun i j => if i = 1 ∧ j = 1 then 1 else 0

/-- The empty local pattern. -/
def cz : Fin 3 → Fin 3 → Int := fun _ _ => 0

/-- C8 counterexample: no remainder `K` and local scoring function `L`
make `_evaluate_numpy` on the all-open macro board a weighted fold with
the claimed center-3/corner-2/edge-1 multipliers.  A single own mark
scores +2 regardless of whether it sits in the center, an edge or a
corner sub-board (and the empty board scores 0), which is inconsistent
with any such weighting. -/
theorem evaluate_weights_counterexample :
    ¬ ∃ (K : Int) (L : (Fin 3 → Fin 3 → Int) → Int),
      ∀ b : Board9, evaluate b mZero = claimedFold K L b := by
  rintro ⟨K, L, h⟩
  have h0 := h bZero
  have hC := h (bOne 4 4)
  have hE := h (bOne 1 4)
  have hK := h (bOne 1 1)
  rw [show evaluate bZero mZero = 0 from by decide] at h0
  rw [show evaluate (bOne 4 4) mZero = 2 from by decide] at hC
  rw [show evaluate (bOne 1 4) mZero = 2 from by decide] at hE
  rw [show evaluate (bOne 1 1) mZero = 2 from by decide] at hK
  unfold claimedFold at h0 hC hE hK
  simp only [Fin.sum_univ_three] at h0 hC hE hK
  simp only [show ∀ br bc : Fin 3, subCells bZero br bc = cz from by decide] at h0
  simp only [show ∀ br bc : Fin 3, subCells (bOne 4 4) br bc =
    (if (br, bc) = (1, 1) then cm else cz) from by decide] at hC
  simp only [show ∀ br bc : Fin 3, subCells (bOne 1 4) br bc =
    (if (br, bc) = (0, 1) then cm else cz) from by decide] at hE
  simp only [show ∀ br bc : Fin 3, subCells (bOne 1 1) br bc =
    (if (br, bc) = (0, 0) then cm else cz) from by decide] at hK
  simp only [Prod.mk.injEq, eq_false (by decide : ¬((0 : Fin 3) = 1)),
    eq_false (by decide : ¬((2 : Fin 3) = 1)), eq_false (by decide : ¬((1 : Fin 3) = 0)),
    eq_false (by decide : ¬((2 : Fin 3) = 0)), eq_self_iff_true, if_true, if_false,
    false_and, and_false, and_true, true_and] at hC hE hK
  norm_num [claimedWeight, mkMac] at h0 hC hE hK
  omega

theorem fin3div_mkIdx : ∀ a i : Fin 3, fin3div (mkIdx a i) = a := by decide

theorem mkIdx_bijective :
    Function.Bijective (fun p : Fin 3 × Fin 3 => mkIdx p.1 p.2) := by decide

theorem sum_fin9_blocks (F : Fin 9 → Int) :
    ∑ r : Fin 9, F r = ∑ br : Fin 3, ∑ i : Fin 3, F (mkIdx br i) := by
  have h1 : ∑ p : Fin 3 × Fin 3, F (mkIdx p.1 p.2) = ∑ r : Fin 9, F r :=
    Fintype.sum_bijective _ mkIdx_bijective _ _ (fun p => rfl)
  rw [← h1, Fintype.sum_prod_type]

/-- The masked 9x9 sum of `_evaluate_numpy` regrouped by sub-board: it
is exactly the cell material of the still-open sub-boards, each with
the same unit weight. -/
theorem masked_sum_eq (b : Board9) (m : Macro) :
    ((List.finRange 9).map fun r =>
      ((List.finRange 9).map fun c =>
        b r c * (if m (fin3div r) (fin3div c) = 0 then 1 else 0)).sum).sum
    = playableLocalSum b m := by
  simp only [← Fin.sum_univ_def]
  rw [sum_fin9_blocks]
  unfold playableLocalSum
  refine Finset.sum_congr rfl fun br _ => ?_
  have h2 : ∀ i : Fin 3, (∑ c : Fin 9, b (mkIdx br i) c *
      (if m (fin3div (mkIdx br i)) (fin3div c) = 0 then 1 else 0)) =
      ∑ bc : Fin 3, ∑ j : Fin 3, b (mkIdx br i) (mkIdx bc j) *
      (if m br bc = 0 then 1 else 0) := by
    intro i
    rw [sum_fin9_blocks]
    simp only [fin3div_mkIdx]
  simp only [h2]
  rw [Finset.sum_comm]
  refine Finset.sum_congr rfl fun bc _ => ?_
  by_cases hm : m br bc = 0
  · simp [hm, subSum]
  · simp [hm]

/-- C8 (amended): `_evaluate_numpy` is the macro material term, the
macro near-win term, twice the plain cell material of every still-open
sub-board — one uniform weight, no center-3/corner-2/edge-1 positional
multipliers and no per-sub-board near-win logic — plus a 50-point bonus
when the center sub-board is won by the searching player. -/
theorem evaluate_structure (b : Board9) (m : Macro) :
    evaluate b m =
      ((List.finRange 3).map fun r => rowSum m r).sum * 500
      + (((metaLines m).filter fun x => x = 2).length : Int) * 50
      - (((metaLines m).filter fun x => x = -2).length : Int) * 50
      + playableLocalSum b m * 2
      + (if m 1 1 = 1 then 50 else 0) := by
  have hmsk := masked_sum_eq b m
  unfold evaluate metaLines
  by_cases hc : m 1 1 = 1 <;> simp only [hc, if_true, if_false] <;> rw [hmsk] <;> ring

/-- A playable sub-board has an empty cell. -/
theorem playable_has_empty (sb : SubBoard) (h : sb.is_playable = true) :
    ∃ cr cc, sb.cells cr cc = none := by
  unfold SubBoard.is_playable at h
  rw [Bool.and_eq_true] at h
  have hf := h.2
  rw [Bool.not_eq_true'] at hf
  unfold SubBoard.is_full at hf
  rw [List.all_eq_false] at hf
  obtain ⟨r, _, hr⟩ := hf
  rw [Bool.not_eq_true, List.all_eq_false] at hr
  obtain ⟨c, _, hc⟩ := hr
  exact ⟨r, c, Option.not_isSome_iff_eq_none.mp hc⟩

/-- The not-all-unplayable test yields a playable sub-board. -/
theorem exists_playable_of_not_all {bs : Fin 3 → Fin 3 → SubBoard}
    (h : allUnplayableB bs = false) : ∃ br bc, (bs br bc).is_playable = true := by
  unfold allUnplayableB at h
  rw [List.all_eq_false] at h
  obtain ⟨r, _, hr⟩ := h
  rw [Bool.not_eq_true, List.all_eq_false] at hr
  obtain ⟨c, _, hc⟩ := hr
  refine ⟨r, c, ?_⟩
  rw [Bool.not_eq_true, Bool.not_eq_false'] at hc
  exact hc

/-- Every move tuple occurs in the row-major enumeration. -/
theorem mem_allMoves : ∀ m : Move, m ∈ allMoves := by decide

/-- The invariant C9 needs of reachable states: while the game runs, a
set active board is playable, and some sub-board is playable. -/
def GoodActive (g : Game) : Prop :=
  g.game_over = false →
    (∀ p : Fin 3 × Fin 3, g.active_board = some p →
        (g.sub_boards p.1 p.2).is_playable = true) ∧
    ∃ br bc, (g.sub_boards br bc).is_playable = true

/-- States reachable from the initial position through successful
moves. -/
inductive Reachable : Game → Prop
  | init : Reachable Game.init
  | step (g : Game) (br bc cr cc : Fin 3) :
      Reachable g → (g.make_move br bc cr cc).1 = true →
      Reachable (g.make_move br bc cr cc).2

theorem reachable_goodActive {g : Game} (h : Reachable g) : GoodActive g := by
  induction h with
  | init =>
      intro _
      exact ⟨fun p hp => by simp [Game.init] at hp, 0, 0, by decide⟩
  | step g br bc cr cc hr hs ih =>
      intro hno
      have spec := (make_move_success_spec g br bc cr cc hs).2 hno
      refine ⟨fun p hp => ?_, exists_playable_of_not_all spec.2.2⟩
      rw [spec.2.1] at hp
      split at hp
      · rename_i hpl
        injection hp with hp'
        rw [← hp']
        exact hpl
      · cases hp

/-- In a reachable running position the move list is never empty. -/
theorem reachable_moves_ne_nil {g : Game} (hr : Reachable g)
    (hno : g.game_over = false) : g.get_valid_moves ≠ [] := by
  obtain ⟨hact, br0, bc0, hp0⟩ := reachable_goodActive hr hno
  cases hab : g.active_board with
  | some p =>
      have hp := hact p hab
      obtain ⟨cr, cc, hc⟩ := playable_has_empty _ hp
      apply List.ne_nil_of_mem (a := (p.1, p.2, cr, cc))
      rw [valid_moves_eq_filter]
      refine List.mem_filter.mpr ⟨mem_allMoves _, ?_⟩
      simp [claimValid, hp, hc, hno, hab]
  | none =>
      obtain ⟨cr, cc, hc⟩ := playable_has_empty _ hp0
      apply List.ne_nil_of_mem (a := (br0, bc0, cr, cc))
      rw [valid_moves_eq_filter]
      refine List.mem_filter.mpr ⟨mem_allMoves _, ?_⟩
      simp [claimValid, hp0, hc, hno, hab]

/-- C9: for every reachable state, `get_move` returns `None` iff the
game is over or it is not the AI's turn; in particular a reachable
running state always has a valid move, so the empty-move-list early
return (and hence the search's defensive fallback path) is unreachable
when it is the AI's turn and the game is not over. -/
theorem get_move_none_iff {g : Game} (hr : Reachable g)
    (sym : Player) (diff : Difficulty) :
    (AIPlayer.get_move sym diff g = none ↔
      (g.game_over = true ∨ g.current_player ≠ sym)) ∧
    (g.game_over = false → g.get_valid_moves ≠ []) := by
  refine ⟨⟨fun hn => ?_, fun h => ?_⟩, fun hno => reachable_moves_ne_nil hr hno⟩
  · by_contra hcon
    push_neg at hcon
    obtain ⟨hno, hcur⟩ := hcon
    have hno' : g.game_over = false := Bool.eq_false_iff.mpr hno
    have hne := reachable_moves_ne_nil hr hno'
    unfold AIPlayer.get_move at hn
    simp only [hno', Bool.false_eq_true, if_false, hcur, not_true_eq_false,
      ne_eq, not_false_eq_true, if_neg] at hn
    rw [if_neg (by simpa using hne)] at hn
    cases diff with
    | easy =>
        exact hne (List.head?_eq_none_iff.mp hn)
    | medium =>
        revert hn
        cases mediumSearch (toBoard sym g) (toMacro sym g) g.get_valid_moves with
        | some mv => simp
        | none => exact fun hn => hne (List.head?_eq_none_iff.mp hn)
    | bigBrain =>
        revert hn
        cases bigbrainSearch (adaptiveDepth g.get_valid_moves.length)
            (toBoard sym g) (toMacro sym g) g.get_valid_moves with
        | some mv => simp
        | none => exact fun hn => hne (List.head?_eq_none_iff.mp hn)
  · unfold AIPlayer.get_move
    rcases h with h | h
    · simp [h]
    · cases hgo : g.game_over <;> simp [h]

/-- C9 witness: the initial position (reachable, running, X to move):
`get_move` for an O player returns `None` and the move list is
non-empty. -/
theorem get_move_none_iff_witness :
    (AIPlayer.get_move Player.O Difficulty.easy Game.init = none ↔
      (Game.init.game_over = true ∨ Game.init.current_player ≠ Player.O)) ∧
    (Game.init.game_over = false → Game.init.get_valid_moves ≠ []) :=
  get_move_none_iff Reachable.init Player.O Difficulty.easy

theorem insertDesc_perm (x : Move) (l : List Move) : (insertDesc x l).Perm (x :: l) := by
  induction l with
  | nil => exact List.Perm.refl _
  | cons y ys ih =>
      unfold insertDesc
      split
      · exact List.Perm.refl _
      · exact (ih.cons y).trans (List.Perm.swap x y ys)

theorem pySortDesc_foldl_perm (l : List Move) :
    ∀ acc : List Move, (l.foldl (fun a x => insertDesc x a) acc).Perm (l ++ acc) := by
  induction l with
  | nil => intro acc; simp
  | cons x xs ih =>
      intro acc
      have h1 := ih (insertDesc x acc)
      have h2 : (xs ++ insertDesc x acc).Perm (xs ++ x :: acc) :=
        List.Perm.append_left xs (insertDesc_perm x acc)
      have h3 : (xs ++ x :: acc).Perm (x :: (xs ++ acc)) := List.perm_middle
      simpa using (h1.trans h2).trans h3

/-- Python's stable sort is a permutation of its input. -/
theorem pySortDesc_perm (l : List Move) : (pySortDesc l).Perm l := by
  have h := pySortDesc_foldl_perm l []
  simpa [pySortDesc] using h

theorem rootLoop_isSome_of_isSome (f : Move → EInt → ℤ) :
    ∀ (ms : List Move) (bm : Option Move) (bs a : EInt),
      bm.isSome = true → (rootLoop f ms bm bs a).isSome = true := by
  intro ms
  induction ms with
  | nil => exact fun bm bs a h => h
  | cons mv ms ih =>
      intro bm bs a h
      unfold rootLoop
      dsimp only
      have hsome : (if bs < iE (f mv a) then some mv else bm).isSome = true := by
        split
        · rfl
        · exact h
      split
      · exact hsome
      · exact ih _ _ _ hsome

/-- The first root iteration always sets a best move (`-inf` is below
every score), and it is never lost afterwards. -/
theorem rootLoop_cons_isSome (f : Move → EInt → ℤ) (mv : Move) (ms : List Move) :
    (rootLoop f (mv :: ms) none ⊥ ⊥).isSome = true := by
  unfold rootLoop
  have hlt : (⊥ : EInt) < iE (f mv ⊥) := WithBot.bot_lt_coe _
  simp only [hlt, if_true]
  split
  · rfl
  · exact rootLoop_isSome_of_isSome f ms (some mv) _ _ rfl

/-- C10: on any non-empty move list, both search-based selectors return
a move from their (pure, deterministic) root loop: the
`random.choice` fallback branch is unreachable, so for a fixed position
and depth the selected move is a function of the inputs alone. -/
theorem search_move_deterministic (d : Nat) (b : Board9) (m : Macro)
    (moves : List Move) (h : moves ≠ []) :
    (∃ mv, bigbrainSearch d b m moves = some mv) ∧
    (∃ mv, mediumSearch b m moves = some mv) := by
  constructor
  · have hs : pySortDesc moves ≠ [] := by
      intro hnil
      have hp := pySortDesc_perm moves
      rw [hnil] at hp
      exact h hp.symm.eq_nil
    unfold bigbrainSearch
    cases hps : pySortDesc moves with
    | nil => exact absurd hps hs
    | cons a as =>
        exact Option.isSome_iff_exists.mp (rootLoop_cons_isSome _ a as)
  · unfold mediumSearch
    cases hm : moves with
    | nil => exact absurd hm h
    | cons a as =>
        exact Option.isSome_iff_exists.mp (rootLoop_cons_isSome _ a as)

/-- C10 witness: a singleton move list at the empty position. -/
theorem search_move_deterministic_witness :
    (∃ mv, bigbrainSearch 3 bZero mZero [(0, 0, 0, 0)] = some mv) ∧
    (∃ mv, mediumSearch bZero mZero [(0, 0, 0, 0)] = some mv) :=
  search_move_deterministic 3 bZero mZero [(0, 0, 0, 0)] (by decide)

/-! ## Alpha-beta soundness (claim C5)

Fail-soft alpha-beta invariant: a value returned inside the window is
exact; a value at or below alpha is an upper bound on the true minimax
value; a value at or above beta is a lower bound. -/

theorem iE_le_iff {a b : ℤ} : iE a ≤ iE b ↔ a ≤ b := by
  unfold iE
  rw [WithBot.coe_le_coe, WithTop.coe_le_coe]

theorem iE_lt_iff {a b : ℤ} : iE a < iE b ↔ a < b := by
  unfold iE
  rw [WithBot.coe_lt_coe, WithTop.coe_lt_coe]

theorem bot_lt_iE (n : ℤ) : (⊥ : EInt) < iE n := WithBot.bot_lt_coe _

theorem iE_lt_top (n : ℤ) : iE n < (⊤ : EInt) := by
  unfold iE
  exact WithBot.coe_lt_coe.mpr (WithTop.coe_lt_top n)

theorem toIntD_iE (n : ℤ) : (iE n).toIntD = n := rfl

/-- The exact full-minimax value of a maximizing node's children,
folded with `max` from `-inf`. -/
def TmMax (ffull : Move → ℤ) (ms : List Move) : EInt :=
  ms.foldr (fun mv acc => max (iE (ffull mv)) acc) ⊥

/-- The exact full-minimax value of a minimizing node's children,
folded with `min` from `+inf`. -/
def TmMin (ffull : Move → ℤ) (ms : List Move) : EInt :=
  ms.foldr (fun mv acc => min (iE (ffull mv)) acc) ⊤

theorem TmMax_form (ffull : Move → ℤ) :
    ∀ ms : List Move, TmMax ffull ms = ⊥ ∨ ∃ n, TmMax ffull ms = iE n := by
  intro ms
  induction ms with
  | nil => exact Or.inl rfl
  | cons mv ms ih =>
      right
      rcases ih with h | ⟨n, h⟩
      · exact ⟨ffull mv, by simp [TmMax] at h ⊢; simp [h]⟩
      · refine ⟨max (ffull mv) n, ?_⟩
        have : TmMax ffull (mv :: ms) = max (iE (ffull mv)) (TmMax ffull ms) := rfl
        rw [this, h]
        unfold iE
        rw [WithTop.coe_max, WithBot.coe_max]

theorem TmMin_form (ffull : Move → ℤ) :
    ∀ ms : List Move, TmMin ffull ms = ⊤ ∨ ∃ n, TmMin ffull ms = iE n := by
  intro ms
  induction ms with
  | nil => exact Or.inl rfl
  | cons mv ms ih =>
      right
      rcases ih with h | ⟨n, h⟩
      · exact ⟨ffull mv, by simp [TmMin] at h ⊢; simp [h]⟩
      · refine ⟨min (ffull mv) n, ?_⟩
        have : TmMin ffull (mv :: ms) = min (iE (ffull mv)) (TmMin ffull ms) := rfl
        rw [this, h]
        unfold iE
        rw [WithTop.coe_min, WithBot.coe_min]

theorem TmMax_cons (ffull : Move → ℤ) (mv : Move) (ms : List Move) :
    TmMax ffull (mv :: ms) = max (iE (ffull mv)) (TmMax ffull ms) := rfl

theorem TmMin_cons (ffull : Move → ℤ) (mv : Move) (ms : List Move) :
    TmMin ffull (mv :: ms) = min (iE (ffull mv)) (TmMin ffull ms) := rfl

/-- The fail-soft guarantee of one child call at window `(a, bt)`. -/
def ABTriple (g t : ℤ) (a bt : EInt) : Prop :=
  (iE g ≤ a → t ≤ g) ∧ (bt ≤ iE g → g ≤ t) ∧ (a < iE g → iE g < bt → g = t)

theorem maxLoopSound (fab : Move → EInt → ℤ) (ffull : Move → ℤ) (beta : EInt)
    (hch : ∀ mv a, a < beta → ABTriple (fab mv a) (ffull mv) a beta) :
    ∀ (ms : List Move) (best alpha alpha0 : EInt),
      alpha = max alpha0 best → alpha < beta →
      (best ≤ maxLoop fab beta ms best alpha) ∧
      (maxLoop fab beta ms best alpha ≤ alpha0 →
        TmMax ffull ms ≤ maxLoop fab beta ms best alpha) ∧
      (beta ≤ maxLoop fab beta ms best alpha →
        maxLoop fab beta ms best alpha ≤ TmMax ffull ms) ∧
      (alpha0 < maxLoop fab beta ms best alpha →
        maxLoop fab beta ms best alpha < beta →
        maxLoop fab beta ms best alpha = max best (TmMax ffull ms)) ∧
      ((maxLoop fab beta ms best alpha = best) ∨
        ∃ n, maxLoop fab beta ms best alpha = iE n) ∧
      (∀ mv ms', ms = mv :: ms' → iE (fab mv alpha) ≤ maxLoop fab beta ms best alpha) := by
  intro ms
  induction ms with
  | nil =>
      intro best alpha alpha0 halpha hlt
      refine ⟨le_refl _, fun _ => bot_le, fun hb => ?_, fun h1 h2 => ?_,
        Or.inl rfl, fun mv ms' h => nomatch h⟩
      · exact absurd (hb.trans (halpha ▸ le_max_right alpha0 best))
          (not_le.mpr hlt)
      · exact (max_eq_left bot_le).symm
  | cons mv ms ih =>
      intro best alpha alpha0 halpha hlt
      have hg3 := hch mv alpha hlt
      unfold maxLoop
      dsimp only
      by_cases hbr : beta ≤ max alpha (iE (fab mv alpha))
      · rw [if_pos hbr]
        have hbg : beta ≤ iE (fab mv alpha) := by
          rcases le_max_iff.mp hbr with h | h
          · exact absurd h (not_le.mpr hlt)
          · exact h
        have hbest_lt : best < beta :=
          lt_of_le_of_lt (halpha ▸ le_max_right alpha0 best) hlt
        refine ⟨le_max_left _ _, fun hRa => ?_, fun _ => ?_, fun h1 h2 => ?_, ?_, ?_⟩
        · exact absurd (lt_of_le_of_lt
            ((hbg.trans ((le_max_right best _).trans hRa)).trans
              (halpha ▸ le_max_left alpha0 best)) hlt) (lt_irrefl beta)
        · have hRg : max best (iE (fab mv alpha)) = iE (fab mv alpha) :=
            max_eq_right (hbest_lt.le.trans hbg)
          rw [hRg, TmMax_cons]
          exact le_max_of_le_left (iE_le_iff.mpr (hg3.2.1 hbg))
        · exact absurd (lt_of_le_of_lt (hbg.trans (le_max_right best _)) h2)
            (lt_irrefl beta)
        · rcases max_choice best (iE (fab mv alpha)) with hc | hc
          · exact Or.inl hc
          · exact Or.inr ⟨fab mv alpha, hc⟩
        · intro mv' ms' heq
          injection heq with h1 h2
          rw [← h1]
          exact le_max_right _ _
      · rw [if_neg hbr]
        have halt' : max alpha (iE (fab mv alpha)) < beta := not_le.mp hbr
        have halpha' : max alpha (iE (fab mv alpha)) =
            max alpha0 (max best (iE (fab mv alpha))) := by
          rw [halpha, max_assoc]
        obtain ⟨ih1, ih2, ih3, ih4, ih0, ih5⟩ :=
          ih (max best (iE (fab mv alpha))) (max alpha (iE (fab mv alpha))) alpha0
            halpha' halt'
        have hbestR : best ≤ maxLoop fab beta ms (max best (iE (fab mv alpha)))
            (max alpha (iE (fab mv alpha))) := (le_max_left _ _).trans ih1
        have hgR : iE (fab mv alpha) ≤ maxLoop fab beta ms
            (max best (iE (fab mv alpha))) (max alpha (iE (fab mv alpha))) :=
          (le_max_right _ _).trans ih1
        refine ⟨hbestR, fun hRa => ?_, fun hb => ?_, fun h1 h2 => ?_, ?_, ?_⟩
        · rw [TmMax_cons]
          refine max_le ?_ (ih2 hRa)
          have hga : iE (fab mv alpha) ≤ alpha :=
            (hgR.trans hRa).trans (halpha ▸ le_max_left alpha0 best)
          exact (iE_le_iff.mpr (hg3.1 hga)).trans hgR
        · rw [TmMax_cons]
          exact (ih3 hb).trans (le_max_right _ _)
        · have hx := ih4 h1 h2
          rw [TmMax_cons]
          by_cases hga : iE (fab mv alpha) ≤ alpha
          · have hff : iE (ffull mv) ≤ iE (fab mv alpha) := iE_le_iff.mpr (hg3.1 hga)
            have hxg : maxLoop fab beta ms (max best (iE (fab mv alpha)))
                (max alpha (iE (fab mv alpha))) =
                max (iE (fab mv alpha)) (max best (TmMax ffull ms)) := by
              rw [hx, max_comm best (iE (fab mv alpha)), max_assoc]
            have hRK : maxLoop fab beta ms (max best (iE (fab mv alpha)))
                (max alpha (iE (fab mv alpha))) = max best (TmMax ffull ms) := by
              rcases max_choice (iE (fab mv alpha)) (max best (TmMax ffull ms)) with hc | hc
              · rw [hxg, hc]
                have hKg : max best (TmMax ffull ms) ≤ iE (fab mv alpha) := by
                  rw [← hc]
                  exact le_max_right _ _
                rcases max_choice alpha0 best with ha | ha
                · exfalso
                  have h1x : alpha0 < iE (fab mv alpha) := by
                    rw [hxg, hc] at h1
                    exact h1
                  have haa : alpha = alpha0 := halpha.trans ha
                  exact absurd (hga.trans haa.le) (not_le.mpr h1x)
                · have hab : alpha = best := halpha.trans ha
                  exact (le_antisymm hKg
                    ((hga.trans hab.le).trans (le_max_left _ _))).symm
              · rw [hxg, hc]
            rw [hRK]
            have halK : alpha ≤ max best (TmMax ffull ms) := by
              rw [halpha]
              refine max_le ?_ (le_max_left _ _)
              rw [← hRK]
              exact h1.le
            rw [max_left_comm best (iE (ffull mv)) (TmMax ffull ms)]
            exact (max_eq_right ((hff.trans hga).trans halK)).symm
          · have hgb : iE (fab mv alpha) < beta :=
              lt_of_le_of_lt (le_max_right alpha _) halt'
            have hfe : fab mv alpha = ffull mv := hg3.2.2 (not_le.mp hga) hgb
            rw [hx, ← hfe, max_assoc]
        · rcases ih0 with h | h
          · rcases max_choice best (iE (fab mv alpha)) with hc | hc
            · exact Or.inl (h.trans hc)
            · exact Or.inr ⟨fab mv alpha, h.trans hc⟩
          · exact Or.inr h
        · intro mv' ms' heq
          injection heq with h1 h2
          rw [← h1]
          exact hgR

theorem minLoopSound (fab : Move → EInt → ℤ) (ffull : Move → ℤ) (alpha : EInt)
    (hch : ∀ mv bt, alpha < bt → ABTriple (fab mv bt) (ffull mv) alpha bt) :
    ∀ (ms : List Move) (best beta beta0 : EInt),
      beta = min beta0 best → alpha < beta →
      (minLoop fab alpha ms best beta ≤ best) ∧
      (beta0 ≤ minLoop fab alpha ms best beta →
        minLoop fab alpha ms best beta ≤ TmMin ffull ms) ∧
      (minLoop fab alpha ms best beta ≤ alpha →
        TmMin ffull ms ≤ minLoop fab alpha ms best beta) ∧
      (alpha < minLoop fab alpha ms best beta →
        minLoop fab alpha ms best beta < beta0 →
        minLoop fab alpha ms best beta = min best (TmMin ffull ms)) ∧
      ((minLoop fab alpha ms best beta = best) ∨
        ∃ n, minLoop fab alpha ms best beta = iE n) ∧
      (∀ mv ms', ms = mv :: ms' → minLoop fab alpha ms best beta ≤ iE (fab mv beta)) := by
  intro ms
  induction ms with
  | nil =>
      intro best beta beta0 hbeta hlt
      refine ⟨le_refl _, fun _ => le_top, fun ha => ?_, fun h1 h2 => ?_,
        Or.inl rfl, fun mv ms' h => nomatch h⟩
      · exact absurd (lt_of_lt_of_le hlt
          ((hbeta ▸ min_le_right beta0 best).trans ha)) (lt_irrefl alpha)
      · exact (min_eq_left le_top).symm
  | cons mv ms ih =>
      intro best beta beta0 hbeta hlt
      have hg3 := hch mv beta hlt
      unfold minLoop
      dsimp only
      by_cases hbr : min beta (iE (fab mv beta)) ≤ alpha
      · rw [if_pos hbr]
        have hga : iE (fab mv beta) ≤ alpha := by
          rcases min_le_iff.mp hbr with h | h
          · exact absurd h (not_le.mpr hlt)
          · exact h
        have hbest_gt : alpha < best :=
          lt_of_lt_of_le hlt (hbeta ▸ min_le_right beta0 best)
        refine ⟨min_le_left _ _, fun hRb => ?_, fun _ => ?_, fun h1 h2 => ?_, ?_, ?_⟩
        · exact absurd (lt_of_lt_of_le hlt
            ((hbeta ▸ min_le_left beta0 best).trans
              ((hRb.trans (min_le_right best _)).trans hga))) (lt_irrefl alpha)
        · have hRg : min best (iE (fab mv beta)) = iE (fab mv beta) :=
            min_eq_right (hga.trans hbest_gt.le)
          rw [hRg, TmMin_cons]
          exact min_le_of_left_le (iE_le_iff.mpr (hg3.1 hga))
        · exact absurd (lt_of_lt_of_le h1 ((min_le_right best _).trans hga))
            (lt_irrefl alpha)
        · rcases min_choice best (iE (fab mv beta)) with hc | hc
          · exact Or.inl hc
          · exact Or.inr ⟨fab mv beta, hc⟩
        · intro mv' ms' heq
          injection heq with h1 h2
          rw [← h1]
          exact min_le_right _ _
      · rw [if_neg hbr]
        have hbt' : alpha < min beta (iE (fab mv beta)) := not_le.mp hbr
        have hbeta' : min beta (iE (fab mv beta)) =
            min beta0 (min best (iE (fab mv beta))) := by
          rw [hbeta, min_assoc]
        obtain ⟨ih1, ih2, ih3, ih4, ih0, ih5⟩ :=
          ih (min best (iE (fab mv beta))) (min beta (iE (fab mv beta))) beta0
            hbeta' hbt'
        have hbestR : minLoop fab alpha ms (min best (iE (fab mv beta)))
            (min beta (iE (fab mv beta))) ≤ best := ih1.trans (min_le_left _ _)
        have hgR : minLoop fab alpha ms (min best (iE (fab mv beta)))
            (min beta (iE (fab mv beta))) ≤ iE (fab mv beta) :=
          ih1.trans (min_le_right _ _)
        refine ⟨hbestR, fun hRb => ?_, fun hRa => ?_, fun h1 h2 => ?_, ?_, ?_⟩
        · rw [TmMin_cons]
          refine le_min ?_ (ih2 hRb)
          have hbg : beta ≤ iE (fab mv beta) :=
            ((hbeta ▸ min_le_left beta0 best).trans hRb).trans hgR
          exact hgR.trans (iE_le_iff.mpr (hg3.2.1 hbg))
        · rw [TmMin_cons]
          exact (min_le_right _ _).trans (ih3 hRa)
        · have hx := ih4 h1 h2
          rw [TmMin_cons]
          by_cases hga : beta ≤ iE (fab mv beta)
          · have hxg : minLoop fab alpha ms (min best (iE (fab mv beta)))
                (min beta (iE (fab mv beta))) =
                min (iE (fab mv beta)) (min best (TmMin ffull ms)) := by
              rw [hx, min_comm best (iE (fab mv beta)), min_assoc]
            have hRK : minLoop fab alpha ms (min best (iE (fab mv beta)))
                (min beta (iE (fab mv beta))) = min best (TmMin ffull ms) := by
              rcases min_choice (iE (fab mv beta)) (min best (TmMin ffull ms)) with hc | hc
              · rw [hxg, hc]
                have hgK : iE (fab mv beta) ≤ min best (TmMin ffull ms) := by
                  rw [← hc]
                  exact min_le_right _ _
                rcases min_choice beta0 best with ha | ha
                · exfalso
                  have h2x : iE (fab mv beta) < beta0 := by
                    rw [hxg, hc] at h2
                    exact h2
                  have hbb : beta = beta0 := hbeta.trans ha
                  exact absurd (hbb ▸ hga) (not_le.mpr h2x)
                · have hab : beta = best := hbeta.trans ha
                  exact le_antisymm hgK ((min_le_left _ _).trans (hab ▸ hga))
              · rw [hxg, hc]
            rw [hRK]
            have hbK : min best (TmMin ffull ms) ≤ beta := by
              rw [hbeta]
              refine le_min ?_ (min_le_left _ _)
              rw [← hRK]
              exact h2.le
            rw [min_left_comm best (iE (ffull mv)) (TmMin ffull ms)]
            exact (min_eq_right
              ((hbK.trans hga).trans (iE_le_iff.mpr (hg3.2.1 hga)))).symm
          · have hag : alpha < iE (fab mv beta) :=
              lt_of_lt_of_le hbt' (min_le_right beta _)
            have hfe : fab mv beta = ffull mv := hg3.2.2 hag (not_le.mp hga)
            rw [hx, ← hfe, min_assoc]
        · rcases ih0 with h | h
          · rcases min_choice best (iE (fab mv beta)) with hc | hc
            · exact Or.inl (h.trans hc)
            · exact Or.inr ⟨fab mv beta, h.trans hc⟩
          · exact Or.inr h
        · intro mv' ms' heq
          injection heq with h1 h2
          rw [← h1]
          exact hgR

theorem iE_inj {a b : ℤ} (h : iE a = iE b) : a = b := by
  unfold iE at h
  exact_mod_cast h

/-- One-step unfolding of `_minimax_numpy` at positive depth with no
terminal meta line. -/
theorem minimaxAB_succ (d : Nat) (b : Board9) (m : Macro)
    (act : Option (Fin 3 × Fin 3)) (alpha beta : EInt) (isMax : Bool)
    (hsw : ¬selfWinB m = true) (how : ¬oppWinB m = true) :
    minimaxAB (d + 1) b m act alpha beta isMax =
      (if genMoves b m act = [] then 0
       else if isMax then
         (maxLoop (fun mv a => minimaxAB d (applyMove b m mv 1).1
           (applyMove b m mv 1).2.1 (applyMove b m mv 1).2.2 a beta false)
           beta (genMoves b m act) ⊥ alpha).toIntD
       else
         (minLoop (fun mv bt => minimaxAB d (applyMove b m mv (-1)).1
           (applyMove b m mv (-1)).2.1 (applyMove b m mv (-1)).2.2 alpha bt true)
           alpha (genMoves b m act) ⊤ beta).toIntD) := by
  rw [minimaxAB.eq_def, if_neg hsw, if_neg how]

/-- One-step unfolding of the reference full minimax at positive depth
with no terminal meta line. -/
theorem minimaxFull_succ (d : Nat) (b : Board9) (m : Macro)
    (act : Option (Fin 3 × Fin 3)) (isMax : Bool)
    (hsw : ¬selfWinB m = true) (how : ¬oppWinB m = true) :
    minimaxFull (d + 1) b m act isMax =
      (if genMoves b m act = [] then 0
       else if isMax then
         (TmMax (fun mv => minimaxFull d (applyMove b m mv 1).1
           (applyMove b m mv 1).2.1 (applyMove b m mv 1).2.2 false)
           (genMoves b m act)).toIntD
       else
         (TmMin (fun mv => minimaxFull d (applyMove b m mv (-1)).1
           (applyMove b m mv (-1)).2.1 (applyMove b m mv (-1)).2.2 true)
           (genMoves b m act)).toIntD) := by
  rw [minimaxFull.eq_def, if_neg hsw, if_neg how]
  rfl

/-- Fail-soft soundness of `_minimax_numpy` against full minimax: a
returned value inside the `(alpha, beta)` window is the exact full
minimax value; a fail-low value bounds it from above, a fail-high value
from below. -/
theorem abSound (d : Nat) :
    ∀ (b : Board9) (m : Macro) (act : Option (Fin 3 × Fin 3))
      (alpha beta : EInt) (isMax : Bool), alpha < beta →
      ABTriple (minimaxAB d b m act alpha beta isMax)
        (minimaxFull d b m act isMax) alpha beta := by
  induction d with
  | zero =>
      intro b m act alpha beta isMax hab
      have he : minimaxAB 0 b m act alpha beta isMax
          = minimaxFull 0 b m act isMax := rfl
      exact ⟨fun _ => he.ge, fun _ => he.le, fun _ _ => he⟩
  | succ d ihd =>
      intro b m act alpha beta isMax hab
      by_cases hsw : selfWinB m = true
      · have he : minimaxAB (d + 1) b m act alpha beta isMax
            = minimaxFull (d + 1) b m act isMax := by
          rw [minimaxAB.eq_def, minimaxFull.eq_def, if_pos hsw, if_pos hsw]
        exact ⟨fun _ => he.ge, fun _ => he.le, fun _ _ => he⟩
      · by_cases how : oppWinB m = true
        · have he : minimaxAB (d + 1) b m act alpha beta isMax
              = minimaxFull (d + 1) b m act isMax := by
            rw [minimaxAB.eq_def, minimaxFull.eq_def, if_neg hsw, if_pos how,
              if_neg hsw, if_pos how]
          exact ⟨fun _ => he.ge, fun _ => he.le, fun _ _ => he⟩
        · by_cases hmv : genMoves b m act = []
          · have he : minimaxAB (d + 1) b m act alpha beta isMax
                = minimaxFull (d + 1) b m act isMax := by
              rw [minimaxAB_succ d b m act alpha beta isMax hsw how,
                minimaxFull_succ d b m act isMax hsw how, if_pos hmv, if_pos hmv]
            exact ⟨fun _ => he.ge, fun _ => he.le, fun _ _ => he⟩
          · obtain ⟨mv0, ms0, hcons⟩ := List.exists_cons_of_ne_nil hmv
            cases isMax with
            | true =>
                have hABeq := minimaxAB_succ d b m act alpha beta true hsw how
                rw [if_neg hmv, if_pos rfl] at hABeq
                have hFulleq := minimaxFull_succ d b m act true hsw how
                rw [if_neg hmv, if_pos rfl] at hFulleq
                obtain ⟨L1, L2, L3, L4, L0, L5⟩ :=
                  maxLoopSound
                    (fun mv a => minimaxAB d (applyMove b m mv 1).1
                      (applyMove b m mv 1).2.1 (applyMove b m mv 1).2.2 a beta false)
                    (fun mv => minimaxFull d (applyMove b m mv 1).1
                      (applyMove b m mv 1).2.1 (applyMove b m mv 1).2.2 false)
                    beta
                    (fun mv a ha => ihd _ _ _ a beta false ha)
                    (genMoves b m act) ⊥ alpha alpha (max_eq_left bot_le).symm hab
                have hRge := L5 mv0 ms0 hcons
                obtain ⟨n, hn⟩ : ∃ n, maxLoop
                    (fun mv a => minimaxAB d (applyMove b m mv 1).1
                      (applyMove b m mv 1).2.1 (applyMove b m mv 1).2.2 a beta false)
                    beta (genMoves b m act) ⊥ alpha = iE n := by
                  rcases L0 with h | h
                  · rw [h] at hRge
                    exact absurd hRge (not_le.mpr (bot_lt_iE _))
                  · exact h
                have hTmge : iE (minimaxFull d (applyMove b m mv0 1).1
                    (applyMove b m mv0 1).2.1 (applyMove b m mv0 1).2.2 false) ≤
                    TmMax (fun mv => minimaxFull d (applyMove b m mv 1).1
                      (applyMove b m mv 1).2.1 (applyMove b m mv 1).2.2 false)
                    (genMoves b m act) := by
                  rw [hcons, TmMax_cons]
                  exact le_max_left _ _
                obtain ⟨t, ht⟩ : ∃ t, TmMax (fun mv => minimaxFull d (applyMove b m mv 1).1
                    (applyMove b m mv 1).2.1 (applyMove b m mv 1).2.2 false)
                    (genMoves b m act) = iE t := by
                  rcases TmMax_form (fun mv => minimaxFull d (applyMove b m mv 1).1
                    (applyMove b m mv 1).2.1 (applyMove b m mv 1).2.2 false)
                    (genMoves b m act) with h | h
                  · rw [h] at hTmge
                    exact absurd hTmge (not_le.mpr (bot_lt_iE _))
                  · exact h
                have hGn : minimaxAB (d + 1) b m act alpha beta true = n := by
                  rw [hABeq, hn, toIntD_iE]
                have hFt : minimaxFull (d + 1) b m act true = t := by
                  rw [hFulleq, ht, toIntD_iE]
                rw [hn] at L1 L2 L3 L4
                rw [ht] at L2 L3 L4
                refine ⟨fun h => ?_, fun h => ?_, fun h1 h2 => ?_⟩
                · rw [hGn] at h
                  rw [hGn, hFt]
                  exact iE_le_iff.mp (L2 h)
                · rw [hGn] at h
                  rw [hGn, hFt]
                  exact iE_le_iff.mp (L3 h)
                · rw [hGn] at h1 h2
                  rw [hGn, hFt]
                  have hL := L4 h1 h2
                  rw [max_eq_right bot_le] at hL
                  exact iE_inj hL
            | false =>
                have hABeq := minimaxAB_succ d b m act alpha beta false hsw how
                rw [if_neg hmv, if_neg Bool.false_ne_true] at hABeq
                have hFulleq := minimaxFull_succ d b m act false hsw how
                rw [if_neg hmv, if_neg Bool.false_ne_true] at hFulleq
                obtain ⟨D1, D2, D3, D4, D0, D5⟩ :=
                  minLoopSound
                    (fun mv bt => minimaxAB d (applyMove b m mv (-1)).1
                      (applyMove b m mv (-1)).2.1 (applyMove b m mv (-1)).2.2 alpha bt true)
                    (fun mv => minimaxFull d (applyMove b m mv (-1)).1
                      (applyMove b m mv (-1)).2.1 (applyMove b m mv (-1)).2.2 true)
                    alpha
                    (fun mv bt hb => ihd _ _ _ alpha bt true hb)
                    (genMoves b m act) ⊤ beta beta (min_eq_left le_top).symm hab
                have hRle := D5 mv0 ms0 hcons
                obtain ⟨n, hn⟩ : ∃ n, minLoop
                    (fun mv bt => minimaxAB d (applyMove b m mv (-1)).1
                      (applyMove b m mv (-1)).2.1 (applyMove b m mv (-1)).2.2 alpha bt true)
                    alpha (genMoves b m act) ⊤ beta = iE n := by
                  rcases D0 with h | h
                  · rw [h] at hRle
                    exact absurd hRle (not_le.mpr (iE_lt_top _))
                  · exact h
                have hTmle : TmMin (fun mv => minimaxFull d (applyMove b m mv (-1)).1
                    (applyMove b m mv (-1)).2.1 (applyMove b m mv (-1)).2.2 true)
                    (genMoves b m act) ≤
                    iE (minimaxFull d (applyMove b m mv0 (-1)).1
                      (applyMove b m mv0 (-1)).2.1 (applyMove b m mv0 (-1)).2.2 true) := by
                  rw [hcons, TmMin_cons]
                  exact min_le_left _ _
                obtain ⟨t, ht⟩ : ∃ t, TmMin (fun mv => minimaxFull d (applyMove b m mv (-1)).1
                    (applyMove b m mv (-1)).2.1 (applyMove b m mv (-1)).2.2 true)
                    (genMoves b m act) = iE t := by
                  rcases TmMin_form (fun mv => minimaxFull d (applyMove b m mv (-1)).1
                    (applyMove b m mv (-1)).2.1 (applyMove b m mv (-1)).2.2 true)
                    (genMoves b m act) with h | h
                  · rw [h] at hTmle
                    exact absurd hTmle (not_le.mpr (iE_lt_top _))
                  · exact h
                have hGn : minimaxAB (d + 1) b m act alpha beta false = n := by
                  rw [hABeq, hn, toIntD_iE]
                have hFt : minimaxFull (d + 1) b m act false = t := by
                  rw [hFulleq, ht, toIntD_iE]
                rw [hn] at D1 D2 D3 D4
                rw [ht] at D2 D3 D4
                refine ⟨fun h => ?_, fun h => ?_, fun h1 h2 => ?_⟩
                · rw [hGn] at h
                  rw [hGn, hFt]
                  exact iE_le_iff.mp (D3 h)
                · rw [hGn] at h
                  rw [hGn, hFt]
                  exact iE_le_iff.mp (D2 h)
                · rw [hGn] at h1 h2
                  rw [hGn, hFt]
                  have hD := D4 h1 h2
                  rw [min_eq_right le_top] at hD
                  exact iE_inj hD

theorem TmMax_perm (ffull : Move → ℤ) {l1 l2 : List Move} (p : l1.Perm l2) :
    TmMax ffull l1 = TmMax ffull l2 :=
  p.foldr_eq' (fun x _ y _ z => max_left_comm (iE (ffull y)) (iE (ffull x)) z) ⊥

/-- The full minimax value of the child reached from the root by move
`mv` (the quantity `_bigbrain_move`'s selected move is measured by). -/
def rootChildFull (maxDepth : Nat) (b : Board9) (m : Macro) (mv : Move) : ℤ :=
  minimaxFull (maxDepth - 1) (applyMove b m mv 1).1 (applyMove b m mv 1).2.1
    (applyMove b m mv 1).2.2 false

/-- Invariant of the root loop: either no best move has been recorded
yet and the best score is `-inf`, or the recorded best move's full
minimax value is exactly the recorded best score. -/
def GoodRoot (ffull : Move → ℤ) (bm : Option Move) (bs : EInt) : Prop :=
  (bm = none ∧ bs = ⊥) ∨ ∃ mv, bm = some mv ∧ bs = iE (ffull mv)

theorem rootLoopSound (fab : Move → EInt → ℤ) (ffull : Move → ℤ)
    (hch : ∀ mv a, a < ⊤ → ABTriple (fab mv a) (ffull mv) a ⊤) :
    ∀ (ms : List Move) (bm : Option Move) (bs : EInt), GoodRoot ffull bm bs →
      (max bs (TmMax ffull ms) = ⊥ ∧ rootLoop fab ms bm bs bs = bm) ∨
      (∃ mv, rootLoop fab ms bm bs bs = some mv ∧
        iE (ffull mv) = max bs (TmMax ffull ms)) := by
  intro ms
  induction ms with
  | nil =>
      intro bm bs hg
      rcases hg with ⟨hbm, hbs⟩ | ⟨mv, hbm, hbs⟩
      · left
        refine ⟨?_, rfl⟩
        rw [hbs]
        exact max_eq_left bot_le
      · right
        exact ⟨mv, hbm ▸ rfl, by rw [hbs]; exact (max_eq_left bot_le).symm⟩
  | cons mv ms ih =>
      intro bm bs hg
      have hbslt : bs < ⊤ := by
        rcases hg with ⟨_, hbs⟩ | ⟨mv0, _, hbs⟩
        · rw [hbs]
          exact bot_lt_top
        · rw [hbs]
          exact iE_lt_top _
      have htr := hch mv bs hbslt
      unfold rootLoop
      dsimp only
      have hnb : ¬((⊤ : EInt) ≤ max bs (iE (fab mv bs))) := by
        intro hc
        rcases max_choice bs (iE (fab mv bs)) with hx | hx
        · rw [hx] at hc
          exact absurd (lt_of_le_of_lt hc hbslt) (lt_irrefl _)
        · rw [hx] at hc
          exact absurd (lt_of_le_of_lt hc (iE_lt_top _)) (lt_irrefl _)
      rw [if_neg hnb]
      by_cases hlt : bs < iE (fab mv bs)
      · rw [if_pos hlt, if_pos hlt]
        have hexact : fab mv bs = ffull mv := htr.2.2 hlt (iE_lt_top _)
        have hmax : max bs (iE (fab mv bs)) = iE (fab mv bs) := max_eq_right hlt.le
        rw [hmax]
        have hih := ih (some mv) (iE (fab mv bs))
          (Or.inr ⟨mv, rfl, by rw [hexact]⟩)
        rcases hih with ⟨hbot, _⟩ | ⟨mv', hres, hval⟩
        · exfalso
          have hle : iE (fab mv bs) ≤
              max (iE (fab mv bs)) (TmMax ffull ms) := le_max_left _ _
          rw [hbot] at hle
          exact absurd hle (not_le.mpr (bot_lt_iE _))
        · right
          refine ⟨mv', hres, ?_⟩
          rw [hval, TmMax_cons, ← hexact]
          exact (max_eq_right (hlt.le.trans (le_max_left _ _))).symm
      · rw [if_neg hlt, if_neg hlt]
        have hge : iE (fab mv bs) ≤ bs := not_lt.mp hlt
        rcases hg with ⟨hbm, hbs⟩ | ⟨mv0, hbm, hbs⟩
        · exfalso
          rw [hbs] at hge
          exact absurd hge (not_le.mpr (bot_lt_iE _))
        · have hff : iE (ffull mv) ≤ bs := (iE_le_iff.mpr (htr.1 hge)).trans hge
          have hmax : max bs (iE (fab mv bs)) = bs := max_eq_left hge
          rw [hmax]
          have hih := ih bm bs (Or.inr ⟨mv0, hbm, hbs⟩)
          rcases hih with ⟨hbot, _⟩ | ⟨mv', hres, hval⟩
          · exfalso
            have hle : bs ≤ max bs (TmMax ffull ms) := le_max_left _ _
            rw [hbot, hbs] at hle
            exact absurd hle (not_le.mpr (bot_lt_iE _))
          · right
            refine ⟨mv', hres, ?_⟩
            rw [hval, TmMax_cons]
            rw [max_left_comm bs (iE (ffull mv)) (TmMax ffull ms)]
            exact (max_eq_right (hff.trans (le_max_left _ _))).symm

theorem rootLoop_some_mem (f : Move → EInt → ℤ) :
    ∀ (ms : List Move) (bm : Option Move) (bs a : EInt) (mv : Move),
      rootLoop f ms bm bs a = some mv → bm = some mv ∨ mv ∈ ms := by
  intro ms
  induction ms with
  | nil => exact fun bm bs a mv h => Or.inl h
  | cons mv0 ms ih =>
      intro bm bs a mv h
      unfold rootLoop at h
      dsimp only at h
      by_cases hc : bs < iE (f mv0 a)
      · rw [if_pos hc, if_pos hc] at h
        split at h
        · injection h with h'
          exact Or.inr (h' ▸ List.mem_cons_self mv0 ms)
        · rcases ih _ _ _ _ h with h' | h'
          · injection h' with h''
            exact Or.inr (h'' ▸ List.mem_cons_self mv0 ms)
          · exact Or.inr (List.mem_cons_of_mem mv0 h')
      · rw [if_neg hc, if_neg hc] at h
        split at h
        · exact Or.inl h
        · rcases ih _ _ _ _ h with h' | h'
          · exact Or.inl h'
          · exact Or.inr (List.mem_cons_of_mem mv0 h')

/-- C5: on any position and any non-empty root move list, at every
fixed depth bound, `_bigbrain_move`'s alpha-beta root loop selects a
move from the list whose full (unpruned) minimax value — over the same
move enumeration, terminal scoring and evaluation — equals the maximum
full minimax value over all the root moves, i.e. the value full minimax
itself would compute for the root. -/
theorem bigbrain_alphabeta_equiv (maxDepth : Nat) (b : Board9) (m : Macro)
    (moves : List Move) (h : moves ≠ []) :
    ∃ mv, bigbrainSearch maxDepth b m moves = some mv ∧ mv ∈ moves ∧
      iE (rootChildFull maxDepth b m mv) =
        TmMax (rootChildFull maxDepth b m) moves := by
  have hch : ∀ mv a, a < (⊤ : EInt) →
      ABTriple (minimaxAB (maxDepth - 1) (applyMove b m mv 1).1
        (applyMove b m mv 1).2.1 (applyMove b m mv 1).2.2 a ⊤ false)
        (rootChildFull maxDepth b m mv) a ⊤ :=
    fun mv a ha => abSound (maxDepth - 1) _ _ _ a ⊤ false ha
  have hs : pySortDesc moves ≠ [] := by
    intro hnil
    have hp := pySortDesc_perm moves
    rw [hnil] at hp
    exact h hp.symm.eq_nil
  have hroot := rootLoopSound
    (fun mv a => minimaxAB (maxDepth - 1) (applyMove b m mv 1).1
      (applyMove b m mv 1).2.1 (applyMove b m mv 1).2.2 a ⊤ false)
    (rootChildFull maxDepth b m) hch (pySortDesc moves) none ⊥ (Or.inl ⟨rfl, rfl⟩)
  rcases hroot with ⟨hbot, _⟩ | ⟨mv, hres, hval⟩
  · exfalso
    obtain ⟨mv0, ms0, hcons⟩ := List.exists_cons_of_ne_nil hs
    rw [max_eq_right bot_le] at hbot
    have hle : iE (rootChildFull maxDepth b m mv0) ≤
        TmMax (rootChildFull maxDepth b m) (pySortDesc moves) := by
      rw [hcons, TmMax_cons]
      exact le_max_left _ _
    rw [hbot] at hle
    exact absurd hle (not_le.mpr (bot_lt_iE _))
  · refine ⟨mv, hres, ?_, ?_⟩
    · rcases rootLoop_some_mem _ (pySortDesc moves) none ⊥ ⊥ mv hres with h' | h'
      · exact Option.noConfusion h'
      · exact (pySortDesc_perm moves).mem_iff.mp h'
    · rw [hval, max_eq_right bot_le]
      exact TmMax_perm (rootChildFull maxDepth b m) (pySortDesc_perm moves)

/-- C5 witness: a two-move position at depth 2 — the root finds a
move of maximal full-minimax value. -/
theorem bigbrain_alphabeta_equiv_witness :
    ∃ mv, bigbrainSearch 2 bZero mZero [(0, 0, 0, 0), (0, 0, 1, 1)] = some mv ∧
      mv ∈ ([(0, 0, 0, 0), (0, 0, 1, 1)] : List Move) ∧
      iE (rootChildFull 2 bZero mZero mv) =
        TmMax (rootChildFull 2 bZero mZero) [(0, 0, 0, 0), (0, 0, 1, 1)] :=
  bigbrain_alphabeta_equiv 2 bZero mZero [(0, 0, 0, 0), (0, 0, 1, 1)] (by decide)
